import Mathlib

/-!
# hebcal-go: zmanim, omer, month parsing and Mishna Yomi

A shallow embedding of the parts of the repository the specification speaks
about, and the theorems that settle its claims.

Conventions of the embedding.

* Go `int`/`int64` values are `Int`.  The quantities handled here (seconds and
  milliseconds of civil times, minutes of offset) stay far inside 64 bits, so
  no wrap-around is modelled.  Go's `/` and `%` truncate toward zero; they are
  `Int.tdiv`/`Int.tmod` wherever an operand can be negative, and plain `/`, `%`
  where the operands are non-negative (or the test is `% k == 0`, on which the
  two remainders agree).
* `time.Time` is the standard library's value without a monotonic reading:
  the nanoseconds of the second, the seconds since January 1 of year 1 (UTC)
  and the location.  The calendar algorithms are those of package `time`.
* A `*time.Location` is UTC or a zone at a constant offset from UTC; the
  transitions of the zone database are outside the embedding.  A statement on
  the distance between two instants holds where the zone has no clock change
  between them, and says so: its condition is that the two clocks have the
  same UTC offset.
* The solar computation of `go-sunrise` is floating point and external: it is a
  parameter `sun` of every operation that calls it.
-/

namespace Hebcal

/-! ## Package `time` -/

/-- A time zone: Go's `UTC`, or a zone whose clock is `offset` seconds east of UTC. -/
inductive Location where
  | UTC : Location
  | Fixed (offset : Int) : Location
deriving DecidableEq, Repr

/-- Seconds east of UTC, the `offset` result of `Location.lookup`. -/
def Location.lookup : Location → Int
  | .UTC => 0
  | .Fixed offset => offset

/-- Go's `time.Time`: `wall` holds the nanoseconds, `ext` the seconds since
January 1, year 1 00:00:00 UTC, `loc` the location (`UTC` is Go's nil pointer). -/
structure Time where
  wall : Int
  ext : Int
  loc : Location
deriving DecidableEq, Repr

def secondsPerMinute : Int := 60
def secondsPerHour : Int := 60 * secondsPerMinute
def secondsPerDay : Int := 24 * secondsPerHour
def daysPer400Years : Int := 365 * 400 + 97
def daysPer100Years : Int := 365 * 100 + 24
def daysPer4Years : Int := 365 * 4 + 1

def absoluteZeroYear : Int := -292277022399
def internalYear : Int := 1

/-- Go: `(absoluteZeroYear - internalYear) * 365.2425 * secondsPerDay`. -/
def absoluteToInternal : Int := (absoluteZeroYear - internalYear) * 31556952
def internalToAbsolute : Int := -absoluteToInternal

/-- Go: `(1969*365 + 1969/4 - 1969/100 + 1969/400) * secondsPerDay`. -/
def unixToInternal : Int := (1969 * 365 + 1969 / 4 - 1969 / 100 + 1969 / 400) * secondsPerDay
def internalToUnix : Int := -unixToInternal

/-- The zero value `time.Time{}`. -/
def nilTime : Time := { wall := 0, ext := 0, loc := .UTC }

/-- Go's `Time.In`: the same instant, shown in `loc`. -/
def Time.In (t : Time) (loc : Location) : Time := { t with loc := loc }

/-- Go's `Time.abs`: seconds since the absolute zero year, on the clock of the location. -/
def Time.abs (t : Time) : Int :=
  (t.ext + internalToUnix) + t.loc.lookup + (unixToInternal + internalToAbsolute)

def isLeap (year : Int) : Bool :=
  year % 4 == 0 && (year % 100 != 0 || year % 400 == 0)

/-- Go's `daysBefore` table: days in the non-leap year before month `m + 1`. -/
def daysBefore (m : Int) : Int :=
  [0, 31, 59, 90, 120, 151, 181, 212, 243, 273, 304, 334, 365].getD m.toNat 0

/-- Go's `absDate` (with `full = true`): year, month and day of an absolute second count. -/
def absDate (abs : Int) : Int × Int × Int :=
  let d := abs / secondsPerDay
  -- 400-year cycles
  let n := d / daysPer400Years
  let y := 400 * n
  let d := d - daysPer400Years * n
  -- 100-year cycles; `n -= n >> 2`
  let n := d / daysPer100Years
  let n := n - n / 4
  let y := y + 100 * n
  let d := d - daysPer100Years * n
  -- 4-year cycles
  let n := d / daysPer4Years
  let y := y + 4 * n
  let d := d - daysPer4Years * n
  -- years within the 4-year cycle; `n -= n >> 2`
  let n := d / 365
  let n := n - n / 4
  let y := y + n
  let d := d - 365 * n
  let year := y + absoluteZeroYear
  let day := d
  if isLeap year && day == 31 + 29 - 1 then
    (year, 2, 29)
  else
    let day := if isLeap year && day > 31 + 29 - 1 then day - 1 else day
    let month := day / 31
    let e := daysBefore (month + 1)
    if day ≥ e then
      (year, month + 1 + 1, day - e + 1)
    else
      (year, month + 1, day - daysBefore month + 1)

/-- Go's `absClock`: hour, minute and second within the day. -/
def absClock (abs : Int) : Int × Int × Int :=
  let sec := abs % secondsPerDay
  let hour := sec / secondsPerHour
  let sec := sec - hour * secondsPerHour
  let min := sec / secondsPerMinute
  let sec := sec - min * secondsPerMinute
  (hour, min, sec)

/-- Go's `Time.Date`. -/
def Time.Date (t : Time) : Int × Int × Int := absDate t.abs

/-- Go's `Time.Clock`. -/
def Time.Clock (t : Time) : Int × Int × Int := absClock t.abs

/-- Go's `Time.UnixMilli`. -/
def Time.UnixMilli (t : Time) : Int :=
  (t.ext + internalToUnix) * 1000 + t.wall / 1000000

/-- Go's `time.Unix(sec, nsec)`, shown in `loc`: `nsec` outside `[0, 1e9)` is carried into `sec`. -/
def Unix (sec nsec : Int) (loc : Location) : Time :=
  if nsec < 0 ∨ nsec ≥ 1000000000 then
    let n := Int.tdiv nsec 1000000000
    let sec := sec + n
    let nsec := nsec - n * 1000000000
    if nsec < 0 then
      { wall := nsec + 1000000000, ext := sec - 1 + unixToInternal, loc := loc }
    else
      { wall := nsec, ext := sec + unixToInternal, loc := loc }
  else
    { wall := nsec, ext := sec + unixToInternal, loc := loc }

/-- Go's `time.UnixMilli(msec).In(loc)`. -/
def UnixMilli (msec : Int) (loc : Location) : Time :=
  Unix (Int.tdiv msec 1000) (Int.tmod msec 1000 * 1000000) loc

/-- Go's `norm`: carries `lo` into `hi` so that `0 ≤ lo < base`. -/
def norm (hi lo base : Int) : Int × Int :=
  let (hi, lo) :=
    if lo < 0 then
      let n := (-lo - 1) / base + 1
      (hi - n, lo + n * base)
    else (hi, lo)
  if lo ≥ base then
    let n := lo / base
    (hi + n, lo - n * base)
  else (hi, lo)

/-- Go's `daysSinceEpoch`: days from the absolute epoch to January 1 of `year`. -/
def daysSinceEpoch (year : Int) : Int :=
  let y := year - absoluteZeroYear
  let n := y / 400
  let y := y - 400 * n
  let d := daysPer400Years * n
  let n := y / 100
  let y := y - 100 * n
  let d := d + daysPer100Years * n
  let n := y / 4
  let y := y - 4 * n
  let d := d + daysPer4Years * n
  d + 365 * y

/-- Go's `time.Date`: the instant whose clock in `loc` reads the given fields,
after the fields are normalised (minutes past 59 carry into the hour, and so on). -/
def Date (year month day hour min sec nsec : Int) (loc : Location) : Time :=
  let (year, m) := norm year (month - 1) 12
  let month := m + 1
  let (sec, nsec) := norm sec nsec 1000000000
  let (min, sec) := norm min sec 60
  let (hour, min) := norm hour min 60
  let (day, hour) := norm day hour 24
  let d := daysSinceEpoch year
  let d := d + daysBefore (month - 1)
  let d := if isLeap year && month ≥ 3 then d + 1 else d
  let d := d + (day - 1)
  let abs := d * secondsPerDay
  let abs := abs + (hour * secondsPerHour + min * secondsPerMinute + sec)
  let unix := abs + (absoluteToInternal + internalToUnix)
  let unix := unix - loc.lookup
  { wall := nsec, ext := unix + unixToInternal, loc := loc }

/-! ## Package `zmanim` -/

/-- The result of `sunrise.SunriseSunset(latitude, longitude, year, month, day)`:
sunrise and sunset, or `time.Time{}` twice when the sun does not rise or set. -/
abbrev SunriseSunset := ℚ → ℚ → Int → Int → Int → Time × Time

structure Zmanim where
  Latitude : ℚ
  Longitude : ℚ
  Year : Int
  Month : Int
  Day : Int
  loc : Location
deriving DecidableEq

def Zmanim.inLoc (z : Zmanim) (dt : Time) : Time :=
  if dt = nilTime then dt else dt.In z.loc

def Zmanim.Sunset (sun : SunriseSunset) (z : Zmanim) : Time :=
  z.inLoc (sun z.Latitude z.Longitude z.Year z.Month z.Day).2

def Zmanim.Sunrise (sun : SunriseSunset) (z : Zmanim) : Time :=
  z.inLoc (sun z.Latitude z.Longitude z.Year z.Month z.Day).1

def Zmanim.riseSetOffset (z : Zmanim) (t : Time) (offset : Int) (roundTime : Bool) : Time :=
  if t = nilTime then t
  else
    let (year, month, day) := t.Date
    let (hour, min, sec) := t.Clock
    let offset := if roundTime && (decide (offset > 0) && decide (sec ≥ 30)) then offset + 1 else offset
    let sec := if roundTime then 0 else sec
    Date year month day hour (min + offset) sec 0 z.loc

def Zmanim.SunriseOffset (sun : SunriseSunset) (z : Zmanim) (offset : Int) (roundTime : Bool) : Time :=
  z.riseSetOffset (z.Sunrise sun) offset roundTime

def Zmanim.SunsetOffset (sun : SunriseSunset) (z : Zmanim) (offset : Int) (roundTime : Bool) : Time :=
  z.riseSetOffset (z.Sunset sun) offset roundTime

/-- Halachic hour: `ms in hour`. -/
def Zmanim.hour (sun : SunriseSunset) (z : Zmanim) : Int :=
  let (rise, set) := sun z.Latitude z.Longitude z.Year z.Month z.Day
  let millis := set.UnixMilli - rise.UnixMilli
  Int.tdiv millis 12

def Zmanim.GregEve (sun : SunriseSunset) (z : Zmanim) : Time :=
  let prev := Date z.Year z.Month (z.Day - 1) 0 0 0 0 z.loc
  let (year, month, day) := prev.Date
  let zman : Zmanim :=
    { Latitude := z.Latitude, Longitude := z.Longitude, Year := year, Month := month,
      Day := day, loc := z.loc }
  zman.Sunset sun

/-- Night hour: `ms in hour`. -/
def Zmanim.nightHour (sun : SunriseSunset) (z : Zmanim) : Int :=
  let set := z.GregEve sun
  let rise := z.Sunrise sun
  let millis := rise.UnixMilli - set.UnixMilli
  Int.tdiv millis 12

/-- Go's conversion `int64(x)` of a float: the fraction is dropped (truncation toward zero). -/
def truncate (x : ℚ) : Int := Int.tdiv x.num x.den

/-- Sunrise plus N halachic hours.  `hours` is a `float64` in the source; the package passes
3, 4, 6, 6.5, 9.5 and 10.75 only, and for such quarter-integers the product
`float64(z.hour()) * hours` is exact (a day has far fewer than 2^45 milliseconds), so the
product is taken in `ℚ`. -/
def Zmanim.hourOffset (sun : SunriseSunset) (z : Zmanim) (hours : ℚ) : Time :=
  let rise := z.Sunrise sun
  let millis := rise.UnixMilli + truncate ((z.hour sun : ℚ) * hours)
  UnixMilli millis z.loc

def Zmanim.Chatzot (sun : SunriseSunset) (z : Zmanim) : Time := z.hourOffset sun 6

def Zmanim.ChatzotNight (sun : SunriseSunset) (z : Zmanim) : Time :=
  let rise := z.Sunrise sun
  let millis := rise.UnixMilli - (z.nightHour sun * 6)
  UnixMilli millis z.loc

def Zmanim.SofZmanShma (sun : SunriseSunset) (z : Zmanim) : Time := z.hourOffset sun 3

def Zmanim.SofZmanTfilla (sun : SunriseSunset) (z : Zmanim) : Time := z.hourOffset sun 4

def Zmanim.sofZmanMGA (sun : SunriseSunset) (z : Zmanim) (hours : Int) : Time :=
  let alot72 := z.SunriseOffset sun (-72) false
  let tzeit72 := z.SunsetOffset sun 72 false
  let alot72ms := alot72.UnixMilli
  let temporalHour := Int.tdiv (tzeit72.UnixMilli - alot72ms) 12
  let millis := alot72ms + hours * temporalHour
  UnixMilli millis z.loc

def Zmanim.SofZmanShmaMGA (sun : SunriseSunset) (z : Zmanim) : Time := z.sofZmanMGA sun 3

def Zmanim.SofZmanTfillaMGA (sun : SunriseSunset) (z : Zmanim) : Time := z.sofZmanMGA sun 4

def Zmanim.MinchaGedola (sun : SunriseSunset) (z : Zmanim) : Time := z.hourOffset sun (13 / 2)

def Zmanim.MinchaKetana (sun : SunriseSunset) (z : Zmanim) : Time := z.hourOffset sun (19 / 2)

def Zmanim.PlagHaMincha (sun : SunriseSunset) (z : Zmanim) : Time := z.hourOffset sun (43 / 4)

/-! ## Helpers of the calendar proofs -/

/-- The day count `time.Date` computes for a year, a month and a day. -/
def dayCount (year month day : Int) : Int :=
  daysSinceEpoch year + daysBefore (month - 1) +
    (if isLeap year && decide (month ≥ 3) then 1 else 0) + (day - 1)

/-- Year and day of the year: the first half of `absDate`. -/
def splitYear (d : Int) : Int × Int :=
  let n := d / daysPer400Years
  let y := 400 * n
  let d := d - daysPer400Years * n
  let n := d / daysPer100Years
  let n := n - n / 4
  let y := y + 100 * n
  let d := d - daysPer100Years * n
  let n := d / daysPer4Years
  let y := y + 4 * n
  let d := d - daysPer4Years * n
  let n := d / 365
  let n := n - n / 4
  let y := y + n
  let d := d - 365 * n
  (y + absoluteZeroYear, d)

/-- Month and day of the month: the second half of `absDate`. -/
def splitMonth (leap : Bool) (yd : Int) : Int × Int :=
  if leap && yd == 31 + 29 - 1 then
    (2, 29)
  else
    let day := if leap && yd > 31 + 29 - 1 then yd - 1 else yd
    let month := day / 31
    let e := daysBefore (month + 1)
    if day ≥ e then
      (month + 1 + 1, day - e + 1)
    else
      (month + 1, day - daysBefore month + 1)

/-! ## A sample day

New York on 2022-06-21 (clock four hours behind UTC), with sample sunrise and sunset
instants for that day and the day before, in whole seconds and in UTC as the solar
computation returns them. -/

def newYork : Location := .Fixed (-14400)

def sampleDay : Zmanim :=
  { Latitude := 407128 / 10000, Longitude := -740060 / 10000, Year := 2022, Month := 6,
    Day := 21, loc := newYork }

/-- Sunrise and sunset of the sample days: 2022-06-20 (05:25:05 and 20:30:47 local) and
2022-06-21 (05:25:10 and 20:30:45 local). -/
def sampleSun : SunriseSunset := fun _ _ _ _ day =>
  if day = 20 then (Unix 1655717105 0 .UTC, Unix 1655771447 0 .UTC)
  else (Unix 1655803510 0 .UTC, Unix 1655857845 0 .UTC)

/-- A day on which the sun does not rise or set. -/
def polarSun : SunriseSunset := fun _ _ _ _ _ => (nilTime, nilTime)

/-! ## Command line: `parseGregOrHebMonth` -/

/-- Modelled from the spec: the months of a Hebrew date (`hdate.HMonth`). -/
inductive HMonth where
  | Nisan | Iyyar | Sivan | Tammuz | Av | Elul | Tishrei | Cheshvan | Kislev | Tevet | Shvat
  | Adar1 | Adar2
deriving DecidableEq, Repr

/-- What `parseGregOrHebMonth` writes through its pointer arguments:
`calOptions.IsHebrewYear`, `*gregMonth` and `*hebMonth`. -/
structure MonthArgs where
  IsHebrewYear : Bool
  gregMonth : Int
  hebMonth : HMonth
deriving DecidableEq, Repr

/-- The source's `parseGregOrHebMonth`.  It returns the updated arguments, or the status of
`os.Exit`.  `Atoi` is `strconv.Atoi` and `MonthFromName`, `IsLeapYear` are the functions of
package `hdate`, with `none` for a returned error. -/
def parseGregOrHebMonth (Atoi : String → Option Int) (MonthFromName : String → Option HMonth)
    (IsLeapYear : Int → Bool) (st : MonthArgs) (theYear : Int) (arg : String) :
    Except Int MonthArgs :=
  match Atoi arg with
  | some mm =>
    if st.IsHebrewYear then
      .error 1
    else
      .ok { st with gregMonth := mm }
  | none =>
    match MonthFromName arg with
    | some hm =>
      let st := { st with hebMonth := hm }
      let st := { st with IsHebrewYear := true }
      if hm = HMonth.Adar2 ∧ ¬ IsLeapYear theYear = true then
        .ok { st with hebMonth := HMonth.Adar1 }
      else
        .ok st
    | none => .error 1

/-- Modelled from the spec: `hdate.IsLeapYear`, absent from the sources at hand
("A year is leap iff (7·Y + 1) mod 19 < 7"). -/
def IsLeapYear (year : Int) : Bool := (7 * year + 1) % 19 < 7

/-- A sample of `strconv.Atoi`: the numerals of the months of the sample. -/
def sampleAtoi (s : String) : Option Int :=
  if s = "3" then some 3 else if s = "12" then some 12 else none

/-- A sample of `hdate.MonthFromName`. -/
def sampleMonthFromName (s : String) : Option HMonth :=
  if s = "Adar2" then some HMonth.Adar2
  else if s = "Adar1" then some HMonth.Adar1
  else if s = "Nisan" then some HMonth.Nisan
  else none

/-! ## Omer -/

/-- Modelled from the spec: a Hebrew date (`hdate.HDate`), "(year, month, day)". -/
structure HDate where
  Year : Int
  Month : HMonth
  Day : Int
deriving DecidableEq, Repr

structure omerEvent where
  Date : HDate
  OmerDay : Int
  WeekNumber : Int
  DaysWithinWeeks : Int
deriving DecidableEq, Repr

/-- The source's `newOmerEvent`; a panic is the error of the result. -/
def newOmerEvent (hd : HDate) (omerDay : Int) : Except String omerEvent :=
  if omerDay < 1 ∨ omerDay > 49 then
    .error "invalid omerDay"
  else
    let week := Int.tdiv (omerDay - 1) 7 + 1
    let days := Int.tmod omerDay 7
    let days := if days = 0 then 7 else days
    .ok { Date := hd, OmerDay := omerDay, WeekNumber := week, DaysWithinWeeks := days }

/-! ## Mishna Yomi

`dafyomi/myomi.go` is not among the sources at hand; only its test is.  The index and the
lookup are modelled from the specification. -/

structure Mishna where
  Tractate : String
  Chap : Int
  Verse : Int
deriving DecidableEq, Repr

/-- The two mishnayot of a day. -/
abbrev MishnaPair := Mishna × Mishna

/-- Modelled from the spec: the Gregorian leap rule of `is_leap` ("divisible by 4, except
centuries not divisible by 400"), of package `greg`, absent from the sources at hand. -/
def is_leap (y : Int) : Bool := y % 4 = 0 ∧ (y % 100 ≠ 0 ∨ y % 400 = 0)

/-- Modelled from the spec: "cumulative days through prior months of year y". -/
def days_before_month (y m : Int) : Int :=
  [0, 31, 59, 90, 120, 151, 181, 212, 243, 273, 304, 334].getD (m - 1).toNat 0
    + (if is_leap y ∧ m > 2 then 1 else 0)

/-- Modelled from the spec: `gregorian_to_abs` of §4.1, the absolute day of a Gregorian date:
"365·(y−1) + ⌊(y−1)/4⌋ − ⌊(y−1)/100⌋ + ⌊(y−1)/400⌋ + cumulative days through prior months of
year y + d". -/
def gregorian_to_abs (y m d : Int) : Int :=
  365 * (y - 1) + (y - 1) / 4 - (y - 1) / 100 + (y - 1) / 400 + days_before_month y m + d

/-- Modelled from the spec: the start of the Mishna Yomi cycle, 1947-05-20. -/
def mishnaYomiStart : Int := gregorian_to_abs 1947 5 20

/-- Modelled from the spec: the table the index flattens, the tractates of the six orders of
the Mishna with the number of mishnayot of each chapter (the table of `dafyomi/myomi.go`,
absent from the sources at hand). -/
def mishnayot : List (String × List Nat) :=
  [("Berakhot", [5, 8, 6, 7, 5, 8, 5, 8, 5]),
   ("Peah", [6, 8, 8, 11, 8, 11, 8, 9]),
   ("Demai", [4, 5, 6, 7, 11, 12, 8]),
   ("Kilayim", [9, 11, 7, 9, 8, 9, 8, 6, 10]),
   ("Sheviit", [8, 10, 10, 10, 9, 6, 7, 11, 9, 9]),
   ("Terumot", [10, 6, 9, 13, 9, 6, 7, 12, 7, 12, 10]),
   ("Maasrot", [8, 8, 10, 6, 8]),
   ("Maaser Sheni", [7, 10, 13, 12, 15]),
   ("Challah", [9, 8, 10, 11]),
   ("Orlah", [9, 17, 9]),
   ("Bikkurim", [11, 11, 12, 5]),
   ("Shabbat", [11, 7, 6, 2, 4, 10, 4, 7, 7, 6, 6, 6, 7, 4, 3, 8, 8, 3, 6, 5, 3, 6, 5, 5]),
   ("Eruvin", [10, 6, 9, 11, 9, 10, 11, 11, 4, 15]),
   ("Pesachim", [7, 8, 8, 9, 10, 6, 13, 8, 11, 9]),
   ("Shekalim", [7, 5, 4, 9, 6, 6, 7, 8]),
   ("Yoma", [8, 7, 11, 6, 7, 8, 5, 9]),
   ("Sukkah", [11, 9, 15, 10, 8]),
   ("Beitzah", [10, 10, 8, 7, 7]),
   ("Rosh Hashanah", [9, 9, 8, 9]),
   ("Taanit", [7, 10, 9, 8]),
   ("Megillah", [11, 6, 6, 10]),
   ("Moed Katan", [10, 5, 9]),
   ("Chagigah", [8, 7, 8]),
   ("Yevamot", [4, 10, 10, 13, 6, 6, 6, 6, 6, 9, 7, 6, 13, 9, 10, 7]),
   ("Ketubot", [10, 10, 9, 12, 9, 7, 10, 8, 9, 6, 6, 4, 11]),
   ("Nedarim", [4, 5, 11, 8, 6, 10, 9, 7, 10, 8, 12]),
   ("Nazir", [7, 10, 7, 7, 7, 11, 4, 2, 5]),
   ("Sotah", [9, 6, 8, 5, 5, 4, 8, 7, 15]),
   ("Gittin", [6, 7, 8, 9, 9, 7, 9, 10, 10]),
   ("Kiddushin", [10, 10, 13, 14]),
   ("Bava Kamma", [4, 6, 11, 9, 7, 6, 7, 7, 12, 10]),
   ("Bava Metzia", [8, 11, 12, 12, 11, 8, 11, 9, 13, 6]),
   ("Bava Batra", [6, 14, 8, 9, 11, 8, 4, 8, 10, 8]),
   ("Sanhedrin", [6, 5, 8, 5, 5, 6, 11, 7, 6, 6, 6]),
   ("Makkot", [10, 8, 16]),
   ("Shevuot", [7, 5, 11, 13, 5, 7, 8, 6]),
   ("Eduyot", [14, 10, 12, 12, 7, 3, 9, 7]),
   ("Avodah Zarah", [9, 7, 10, 12, 12]),
   ("Avot", [18, 16, 18, 22, 23, 11]),
   ("Horayot", [5, 7, 8]),
   ("Zevachim", [4, 5, 6, 6, 8, 7, 6, 12, 7, 8, 8, 6, 8, 10]),
   ("Menachot", [4, 5, 7, 5, 9, 7, 6, 7, 9, 9, 9, 5, 11]),
   ("Chullin", [7, 10, 7, 7, 5, 7, 6, 6, 8, 4, 2, 5]),
   ("Bekhorot", [7, 9, 4, 10, 6, 12, 7, 10, 8]),
   ("Arakhin", [4, 6, 5, 4, 6, 5, 5, 7, 8]),
   ("Temurah", [6, 3, 5, 4, 6, 5, 6]),
   ("Keritot", [7, 6, 10, 3, 8, 9]),
   ("Meilah", [4, 9, 8, 6, 5, 6]),
   ("Tamid", [4, 5, 9, 3, 6, 3, 4]),
   ("Middot", [9, 6, 8, 7, 4]),
   ("Kinnim", [4, 5, 6]),
   ("Kelim", [9, 8, 8, 4, 11, 4, 6, 11, 8, 8, 9, 8, 8, 8, 6, 8, 17, 9, 10, 7, 3, 10, 5, 17, 9,
     9, 12, 10, 8, 4]),
   ("Oholot", [8, 7, 7, 3, 7, 7, 6, 6, 16, 7, 9, 8, 6, 7, 10, 5, 5, 10]),
   ("Negaim", [6, 5, 8, 11, 5, 8, 5, 10, 3, 10, 12, 7, 12, 13]),
   ("Parah", [4, 5, 11, 4, 9, 5, 12, 11, 9, 6, 9, 11]),
   ("Tahorot", [9, 8, 8, 13, 9, 10, 9, 9, 9, 8]),
   ("Mikvaot", [8, 10, 4, 5, 6, 11, 7, 5, 7, 8]),
   ("Niddah", [7, 7, 7, 7, 9, 14, 5, 4, 11, 8]),
   ("Makhshirin", [6, 11, 8, 10, 11, 8]),
   ("Zavim", [6, 4, 3, 7, 12]),
   ("Tevul Yom", [5, 8, 6, 7]),
   ("Yadayim", [5, 4, 5, 8]),
   ("Oktzin", [6, 10, 12])]

/-- Modelled from the spec: the mishnayot `1 .. numv` of a chapter, in order. -/
def chapterVerses (tractate : String) (chap : Int) : Nat → List Mishna
  | 0 => []
  | numv + 1 =>
    chapterVerses tractate chap numv ++ [{ Tractate := tractate, Chap := chap, Verse := numv + 1 }]

/-- Modelled from the spec: the mishnayot of the chapters of a tractate, the first of them
being chapter `chap`. -/
def tractateVerses (tractate : String) : Int → List Nat → List Mishna
  | _, [] => []
  | chap, numv :: rest =>
    chapterVerses tractate chap numv ++ tractateVerses tractate (chap + 1) rest

/-- Modelled from the spec: "flattening (tractate, chapter, verse) across the 6 orders of the
Mishna". -/
def flattenMishna : List (String × List Nat) → List Mishna
  | [] => []
  | (k, v) :: rest => tractateVerses k 1 v ++ flattenMishna rest

/-- Modelled from the spec: "then pairs (2·n, 2·n+1)". -/
def mishnaPairs : List Mishna → List MishnaPair
  | a :: b :: rest => (a, b) :: mishnaPairs rest
  | _ => []

/-- Modelled from the spec: the index of `MakeMishnaYomiIndex`, one pair for each day of the
cycle. -/
def MakeMishnaYomiIndex : List MishnaPair := mishnaPairs (flattenMishna mishnayot)

/-- Modelled from the spec: the error of a lookup before the start of a cycle (§4.5, §7). -/
inductive LookupError where
  | OutOfRange
deriving DecidableEq, Repr

/-- Modelled from the spec: `MishnaYomiIndex.Lookup` on the absolute day of the date: the
pair of the day, counted from the start of the cycle modulo its length; a date before the
start is out of range. -/
def MishnaYomiIndex.Lookup (idx : List MishnaPair) (abs : Int) : Except LookupError MishnaPair :=
  if abs < mishnaYomiStart then
    .error LookupError.OutOfRange
  else
    match idx[((abs - mishnaYomiStart) % (idx.length : Int)).toNat]? with
    | some pair => .ok pair
    | none => .error LookupError.OutOfRange

/-! ## Helpers of the Mishna Yomi proofs -/

/-- The mishna at position `i` of the chapters of a tractate, found by walking the chapter
sizes. -/
def verseAt (tractate : String) : Int → List Nat → Nat → Option Mishna
  | _, [], _ => none
  | chap, numv :: rest, i =>
    if i < numv then some { Tractate := tractate, Chap := chap, Verse := i + 1 }
    else verseAt tractate (chap + 1) rest (i - numv)

/-- The mishna at position `i` of the flattened table, found by walking the tractates. -/
def mishnaAt : List (String × List Nat) → Nat → Option Mishna
  | [], _ => none
  | (k, v) :: rest, i =>
    if i < v.sum then verseAt k 1 v i else mishnaAt rest (i - v.sum)

/-- The number of mishnayot of a table. -/
def mishnaCount : List (String × List Nat) → Nat
  | [] => 0
  | (_, v) :: rest => v.sum + mishnaCount rest

/-! ## More of package `time` -/

/-- Go's `Time.IsZero`: the instant is January 1, year 1, 00:00:00 UTC. -/
def Time.IsZero (t : Time) : Bool := t.ext == 0 && t.wall == 0

/-- Go's `strconv.Itoa`: the decimal numeral of an integer. -/
def Itoa (i : Int) : String :=
  match i with
  | Int.ofNat n => Nat.repr n
  | Int.negSucc n => "-" ++ Nat.repr (n + 1)

/-- Go's `appendInt` of package `time`: the decimal numeral of `x`, zero-padded to `width`
digits, after a minus sign when `x` is negative. -/
def appendInt (x : Int) (width : Nat) : String :=
  let digits := Nat.repr x.natAbs
  (if x < 0 then "-" else "") ++ String.mk (List.replicate (width - digits.length) '0') ++ digits

/-- The zone of Go's `Time.Format(time.RFC3339)`: `Z` for UTC time, else `±hh:mm`. -/
def formatZone (offset : Int) : String :=
  if offset = 0 then "Z"
  else
    let zone := Int.tdiv offset 60
    let (sign, zone) := if zone < 0 then ("-", -zone) else ("+", zone)
    sign ++ appendInt (zone / 60) 2 ++ ":" ++ appendInt (zone % 60) 2

/-- Go's `Time.Format(time.RFC3339)`, the layout `2006-01-02T15:04:05Z07:00`. -/
def Time.FormatRFC3339 (t : Time) : String :=
  let (year, month, day) := t.Date
  let (hour, min, sec) := t.Clock
  appendInt year 4 ++ "-" ++ appendInt month 2 ++ "-" ++ appendInt day 2 ++ "T"
    ++ appendInt hour 2 ++ ":" ++ appendInt min 2 ++ ":" ++ appendInt sec 2
    ++ formatZone t.loc.lookup

/-- Go's `time.Weekday`. -/
inductive Weekday where
  | Sunday | Monday | Tuesday | Wednesday | Thursday | Friday | Saturday
deriving DecidableEq, Repr

/-- Go's `Weekday.String`. -/
def Weekday.String : Weekday → String
  | .Sunday => "Sunday"
  | .Monday => "Monday"
  | .Tuesday => "Tuesday"
  | .Wednesday => "Wednesday"
  | .Thursday => "Thursday"
  | .Friday => "Friday"
  | .Saturday => "Saturday"

/-! ## Command line: `printGregDate` and the coordinates of `handleArgs` -/

inductive GregDateFormat where
  | AMERICAN | EURO | ISO
deriving DecidableEq, Repr

/-- The module-level switches `printGregDate` reads. -/
structure Switches where
  tabs_sw : Bool
  weekday_sw : Bool
  gregDateOutputFormatCode_sw : GregDateFormat
  noGreg_sw : Bool
  yearDigits_sw : Bool
deriving DecidableEq, Repr

/-- The source's `printGregDate`.  `Greg` and `WeekdayOf` are `hd.Greg()` and `hd.Weekday()`
of package `hdate`. -/
def printGregDate (sw : Switches) (Greg : HDate → Int × Int × Int) (WeekdayOf : HDate → Weekday)
    (hd : HDate) : String :=
  let str := ""
  let str :=
    if !sw.noGreg_sw then
      let (year, month, day) := Greg hd
      let d := Date year month day 0 0 0 0 Location.UTC
      let str :=
        if sw.gregDateOutputFormatCode_sw = GregDateFormat.ISO then
          str ++ d.FormatRFC3339.take 10
        else
          let str :=
            if sw.gregDateOutputFormatCode_sw = GregDateFormat.EURO then
              str ++ (Itoa day ++ "." ++ Itoa month ++ ".")
            else
              str ++ (Itoa month ++ "/" ++ Itoa day ++ "/")
          if sw.yearDigits_sw then
            str ++ Itoa (Int.tmod year 100)
          else
            str ++ Itoa year
      if sw.tabs_sw then str ++ "\t" else str ++ " "
    else str
  if sw.weekday_sw then
    let tmp := (WeekdayOf hd).String
    str ++ (tmp.take 3 ++ ", ")
  else str

def intAbs (x : Int) : Int := if x < 0 then -x else x

/-- The latitude block of the source's `handleArgs`, from the two integers `fmt.Sscanf` read
out of the argument `deg,min`: the latitude, or the status of `os.Exit`.  The `float64`
arithmetic is taken in `ℚ`. -/
def handleArgs.latitude (latdeg latmin : Int) : Except Int ℚ :=
  if intAbs latdeg > 90 ∨ latmin > 60 ∨ latmin < 0 then
    .error 1
  else
    let latmin := intAbs latmin
    let latmin := if latdeg < 0 then -latmin else latmin
    .ok ((latdeg : ℚ) + (latmin : ℚ) / 60)

/-- The longitude block of the source's `handleArgs`. -/
def handleArgs.longitude (longdeg longmin : Int) : Except Int ℚ :=
  if intAbs longdeg > 180 ∨ longmin > 60 ∨ longmin < 0 then
    .error 1
  else
    let longmin := intAbs longmin
    let longmin := if longdeg < 0 then -longmin else longmin
    .ok (((-1 * longdeg : Int) : ℚ) + (longmin : ℚ) / (-60))

/-- The source's `New`; a panic is the error of the result.  `LoadLocation` is
`time.LoadLocation`, with `none` for a returned error. -/
def New (LoadLocation : String → Option Location) (latitude longitude : ℚ) (date : Time)
    (tzid : String) : Except String Zmanim :=
  if latitude < -90 ∨ latitude > 90 then
    .error "Latitude out of range [-90,90]"
  else if longitude < -180 ∨ longitude > 180 then
    .error "Longitude out of range [-180,180]"
  else
    let (year, month, day) := date.Date
    match LoadLocation tzid with
    | none => .error "unknown time zone"
    | some loc =>
      .ok { Latitude := latitude, Longitude := longitude, Year := year, Month := month,
            Day := day, loc := loc }

/-- A sample of `time.LoadLocation`. -/
def sampleLoadLocation (tzid : String) : Option Location :=
  if tzid = "UTC" then some Location.UTC
  else if tzid = "America/New_York" then some newYork
  else none

/-! ## Omer: `Sefira` -/

def sefirot : List String :=
  ["", "Lovingkindness", "Might", "Beauty", "Eternity", "Splendor", "Foundation", "Majesty"]

def sefirotTranslit : List String :=
  ["", "Chesed", "Gevurah", "Tiferet", "Netzach", "Hod", "Yesod", "Malkhut"]

/-- Go's indexing `xs[i]` of a slice: a panic outside `0 ≤ i < len(xs)`. -/
def index (xs : List String) (i : Int) : Except String String :=
  if 0 ≤ i ∧ i < xs.length then .ok (xs.getD i.toNat "") else .error "index out of range"

/-- The source's `omerEvent.Sefira`; a panic is the error of the result.  `LookupTranslation`
is the first result of `locales.LookupTranslation`. -/
def omerEvent.Sefira (LookupTranslation : String → String → String) (ev : omerEvent)
    (locale : String) : Except String String := do
  let weekStr ← index sefirot ev.WeekNumber
  let dayWithinWeekStr ← index sefirot ev.DaysWithinWeeks
  let weekNum2or6 := ev.WeekNumber = 2 ∨ ev.WeekNumber = 6
  if locale = "he" then
    let week := LookupTranslation weekStr locale
    let dayWithinWeek := LookupTranslation dayWithinWeekStr locale
    let pre := if weekNum2or6 then "שֶׁבִּ" else "שֶׁבְּ"
    pure (dayWithinWeek ++ " " ++ pre ++ week)
  else if locale = "translit" then
    let week ← index sefirotTranslit ev.WeekNumber
    let dayWithinWeek ← index sefirotTranslit ev.DaysWithinWeeks
    let pre := if weekNum2or6 then "shebi" else "sheb\x27"
    pure (dayWithinWeek ++ " " ++ pre ++ week)
  else
    pure (dayWithinWeekStr ++ " within " ++ weekStr)
/-! ## Calendar lemmas -/

theorem isLeap_iff (year : Int) :
    isLeap year = true ↔ year % 4 = 0 ∧ (year % 100 ≠ 0 ∨ year % 400 = 0) := by
  simp [isLeap]

/-- The cycle counts `absDate` cuts off a day number, with their ranges. -/
theorem cycles_arith (D n400 d1 q n100 d2 n4 d3 q1 n1 yd : Int)
    (h1 : n400 = D / 146097) (h2 : d1 = D - 146097 * n400)
    (h3 : q = d1 / 36524) (h4 : n100 = q - q / 4) (h5 : d2 = d1 - 36524 * n100)
    (h6 : n4 = d2 / 1461) (h7 : d3 = d2 - 1461 * n4)
    (h8 : q1 = d3 / 365) (h9 : n1 = q1 - q1 / 4) (h10 : yd = d3 - 365 * n1) :
    146097 * n400 + 36524 * n100 + 1461 * n4 + 365 * n1 + yd = D
      ∧ 0 ≤ n100 ∧ n100 ≤ 3 ∧ 0 ≤ n4 ∧ n4 ≤ 24 ∧ 0 ≤ n1 ∧ n1 ≤ 3
      ∧ 0 ≤ yd ∧ yd ≤ 365 ∧ (yd = 365 → n1 = 3 ∧ (n4 ≠ 24 ∨ n100 = 3)) := by
  have a1 : 0 ≤ d1 ∧ d1 < 146097 := by omega
  have a2 : 0 ≤ q ∧ q ≤ 3 ∨ q = 4 := by omega
  have a3 : 0 ≤ n100 ∧ n100 ≤ 3 := by omega
  have a4 : 0 ≤ d2 ∧ d2 ≤ 36524 ∧ (d2 = 36524 → n100 = 3) := by omega
  have a5 : 0 ≤ n4 ∧ n4 ≤ 24 := by omega
  have a6 : 0 ≤ d3 ∧ d3 ≤ 1460 ∧ (d3 = 1460 → n4 ≠ 24 ∨ n100 = 3) := by omega
  have a7 : 0 ≤ q1 ∧ q1 ≤ 4 := by omega
  have a8 : 0 ≤ n1 ∧ n1 ≤ 3 := by omega
  have a9 : 0 ≤ yd ∧ yd ≤ 365 ∧ (yd = 365 → n1 = 3 ∧ d3 = 1460) := by omega
  refine ⟨by omega, a3.1, a3.2, a5.1, a5.2, a8.1, a8.2, a9.1, a9.2.1, ?_⟩
  intro h
  have := a9.2.2 h
  exact ⟨this.1, a6.2.2 this.2⟩

theorem isLeap_cycles (n400 n100 n4 n1 : Int)
    (h100 : 0 ≤ n100 ∧ n100 ≤ 3) (h4 : 0 ≤ n4 ∧ n4 ≤ 24) (h1 : 0 ≤ n1 ∧ n1 ≤ 3) :
    isLeap (400 * n400 + 100 * n100 + 4 * n4 + n1 + absoluteZeroYear) = true
      ↔ n1 = 3 ∧ (n4 ≠ 24 ∨ n100 = 3) := by
  rw [isLeap_iff]
  simp only [absoluteZeroYear]
  have e4 : (400 * n400 + 100 * n100 + 4 * n4 + n1 + -292277022399) % 4 = (n1 + 1) % 4 := by
    rw [show 400 * n400 + 100 * n100 + 4 * n4 + n1 + -292277022399
      = (n1 + 1) + 4 * (100 * n400 + 25 * n100 + n4 - 73069255600) by ring]
    exact Int.add_mul_emod_self_left _ _ _
  have e100 : (400 * n400 + 100 * n100 + 4 * n4 + n1 + -292277022399) % 100
      = (4 * n4 + n1 + 1) % 100 := by
    rw [show 400 * n400 + 100 * n100 + 4 * n4 + n1 + -292277022399
      = (4 * n4 + n1 + 1) + 100 * (4 * n400 + n100 - 2922770224) by ring]
    exact Int.add_mul_emod_self_left _ _ _
  have e400 : (400 * n400 + 100 * n100 + 4 * n4 + n1 + -292277022399) % 400
      = (100 * n100 + 4 * n4 + n1 + 1) % 400 := by
    rw [show 400 * n400 + 100 * n100 + 4 * n4 + n1 + -292277022399
      = (100 * n100 + 4 * n4 + n1 + 1) + 400 * (n400 - 730692556) by ring]
    exact Int.add_mul_emod_self_left _ _ _
  rw [e4, e100, e400]
  clear e4 e100 e400
  have r4 : (n1 + 1) % 4 = 0 ↔ n1 = 3 := by omega
  have r100 : (4 * n4 + n1 + 1) % 100 = 0 ↔ n4 = 24 ∧ n1 = 3 := by omega
  have r400 : (100 * n100 + 4 * n4 + n1 + 1) % 400 = 0 ↔ n100 = 3 ∧ n4 = 24 ∧ n1 = 3 := by
    omega
  rw [Ne, r4, r100, r400]
  omega

theorem daysSinceEpoch_cycles (n400 n100 n4 n1 : Int)
    (h100 : 0 ≤ n100 ∧ n100 ≤ 3) (h4 : 0 ≤ n4 ∧ n4 ≤ 24) (h1 : 0 ≤ n1 ∧ n1 ≤ 3) :
    daysSinceEpoch (400 * n400 + 100 * n100 + 4 * n4 + n1 + absoluteZeroYear)
      = 146097 * n400 + 36524 * n100 + 1461 * n4 + 365 * n1 := by
  simp only [daysSinceEpoch, daysPer400Years, daysPer100Years, daysPer4Years, absoluteZeroYear]
  have e : 400 * n400 + 100 * n100 + 4 * n4 + n1 + -292277022399 - -292277022399
      = 400 * n400 + (100 * n100 + 4 * n4 + n1) := by ring
  rw [e]
  have q1 : (400 * n400 + (100 * n100 + 4 * n4 + n1)) / 400 = n400 := by omega
  rw [q1]
  have q2 : (400 * n400 + (100 * n100 + 4 * n4 + n1) - 400 * n400) / 100 = n100 := by omega
  rw [q2]
  have q3 : (400 * n400 + (100 * n100 + 4 * n4 + n1) - 400 * n400 - 100 * n100) / 4 = n4 := by
    omega
  rw [q3]
  omega

theorem splitYear_eq (D n400 d1 q n100 d2 n4 d3 q1 n1 yd : Int)
    (h1 : n400 = D / 146097) (h2 : d1 = D - 146097 * n400)
    (h3 : q = d1 / 36524) (h4 : n100 = q - q / 4) (h5 : d2 = d1 - 36524 * n100)
    (h6 : n4 = d2 / 1461) (h7 : d3 = d2 - 1461 * n4)
    (h8 : q1 = d3 / 365) (h9 : n1 = q1 - q1 / 4) (h10 : yd = d3 - 365 * n1) :
    splitYear D = (400 * n400 + 100 * n100 + 4 * n4 + n1 + absoluteZeroYear, yd) := by
  subst h1 h2 h3 h4 h5 h6 h7 h8 h9 h10
  rfl

theorem splitYear_spec (D : Int) :
    daysSinceEpoch (splitYear D).1 + (splitYear D).2 = D
      ∧ 0 ≤ (splitYear D).2
      ∧ (splitYear D).2 < (if isLeap (splitYear D).1 then 366 else 365) := by
  have key : ∀ n400 d1 q n100 d2 n4 d3 q1 n1 yd : Int,
      n400 = D / 146097 → d1 = D - 146097 * n400 → q = d1 / 36524 → n100 = q - q / 4 →
      d2 = d1 - 36524 * n100 → n4 = d2 / 1461 → d3 = d2 - 1461 * n4 → q1 = d3 / 365 →
      n1 = q1 - q1 / 4 → yd = d3 - 365 * n1 →
      daysSinceEpoch (splitYear D).1 + (splitYear D).2 = D
        ∧ 0 ≤ (splitYear D).2
        ∧ (splitYear D).2 < (if isLeap (splitYear D).1 then 366 else 365) := by
    intro n400 d1 q n100 d2 n4 d3 q1 n1 yd h1 h2 h3 h4 h5 h6 h7 h8 h9 h10
    obtain ⟨hsum, b1, b2, b3, b4, b5, b6, b7, b8, b9⟩ :=
      cycles_arith D n400 d1 q n100 d2 n4 d3 q1 n1 yd h1 h2 h3 h4 h5 h6 h7 h8 h9 h10
    rw [splitYear_eq D n400 d1 q n100 d2 n4 d3 q1 n1 yd h1 h2 h3 h4 h5 h6 h7 h8 h9 h10]
    have hd := daysSinceEpoch_cycles n400 n100 n4 n1 ⟨b1, b2⟩ ⟨b3, b4⟩ ⟨b5, b6⟩
    have hl := isLeap_cycles n400 n100 n4 n1 ⟨b1, b2⟩ ⟨b3, b4⟩ ⟨b5, b6⟩
    simp only
    refine ⟨by omega, b7, ?_⟩
    split_ifs with h
    · omega
    · rw [hl] at h
      omega
  exact key _ _ _ _ _ _ _ _ _ _ rfl rfl rfl rfl rfl rfl rfl rfl rfl rfl

theorem absDate_eq (a : Int) :
    absDate a = ((splitYear (a / secondsPerDay)).1,
      splitMonth (isLeap (splitYear (a / secondsPerDay)).1) (splitYear (a / secondsPerDay)).2) := by
  simp only [absDate, splitMonth, splitYear]
  split_ifs <;> rfl

/-- Month and day of Go's `absDate` for a day of the year, leap day taken out. -/
theorem month_arith (day : Int) (h0 : 0 ≤ day) (h1 : day ≤ 364) :
    (daysBefore (day / 31 + 1) ≤ day →
        daysBefore (day / 31 + 1 + 1 - 1) + (day - daysBefore (day / 31 + 1) + 1 - 1) = day
          ∧ 1 ≤ day / 31 + 1 + 1 ∧ day / 31 + 1 + 1 ≤ 12
          ∧ (day / 31 + 1 + 1 ≥ 3 ↔ day ≥ 59))
      ∧ (¬ daysBefore (day / 31 + 1) ≤ day →
        daysBefore (day / 31 + 1 - 1) + (day - daysBefore (day / 31) + 1 - 1) = day
          ∧ 1 ≤ day / 31 + 1 ∧ day / 31 + 1 ≤ 12
          ∧ (day / 31 + 1 ≥ 3 ↔ day ≥ 59)) := by
  have hm : 0 ≤ day / 31 ∧ day / 31 ≤ 11 := by omega
  generalize hq : day / 31 = m at *
  obtain ⟨m0, m11⟩ := hm
  interval_cases m <;> simp [daysBefore] <;> omega


theorem splitMonth_spec (leap : Bool) (yd : Int) (h0 : 0 ≤ yd)
    (h1 : yd < (if leap then 366 else 365)) :
    daysBefore ((splitMonth leap yd).1 - 1)
        + (if leap && decide ((splitMonth leap yd).1 ≥ 3) then 1 else 0)
        + ((splitMonth leap yd).2 - 1) = yd
      ∧ 1 ≤ (splitMonth leap yd).1 ∧ (splitMonth leap yd).1 ≤ 12 := by
  cases leap
  · -- common year
    simp only [Bool.false_eq_true, if_false] at h1
    obtain ⟨m1, m2⟩ := month_arith yd h0 (by omega)
    simp only [splitMonth, Bool.false_and, Bool.false_eq_true, if_false]
    by_cases hc : daysBefore (yd / 31 + 1) ≤ yd
    · rw [if_pos hc]
      have := m1 hc
      simp only [add_zero]
      omega
    · rw [if_neg hc]
      have := m2 hc
      simp only [add_zero]
      omega
  · simp only [if_true] at h1
    simp only [splitMonth, Bool.true_and]
    by_cases h59 : yd = 59
    · subst h59
      simp [daysBefore]
    · have hne : (yd == 31 + 29 - 1) = false := by simpa using h59
      rw [hne]
      simp only [Bool.false_eq_true, if_false]
      by_cases hgt : yd > 59
      · have hd : decide (yd > 31 + 29 - 1) = true := by simpa using hgt
        rw [hd]
        simp only [if_true]
        obtain ⟨m1, m2⟩ := month_arith (yd - 1) (by omega) (by omega)
        by_cases hc : daysBefore ((yd - 1) / 31 + 1) ≤ yd - 1
        · rw [if_pos hc]
          have := m1 hc
          have h3 : decide ((yd - 1) / 31 + 1 + 1 ≥ 3) = true := by
            simp only [decide_eq_true_eq]; omega
          simp only [h3, if_true]
          omega
        · rw [if_neg hc]
          have := m2 hc
          have h3 : decide ((yd - 1) / 31 + 1 ≥ 3) = true := by
            simp only [decide_eq_true_eq]; omega
          simp only [h3, if_true]
          omega
      · have hd : decide (yd > 31 + 29 - 1) = false := by simpa using hgt
        rw [hd]
        simp only [Bool.false_eq_true, if_false]
        obtain ⟨m1, m2⟩ := month_arith yd h0 (by omega)
        by_cases hc : daysBefore (yd / 31 + 1) ≤ yd
        · rw [if_pos hc]
          have := m1 hc
          have h3 : decide (yd / 31 + 1 + 1 ≥ 3) = false := by
            simp only [decide_eq_false_iff_not]; omega
          simp only [h3, Bool.false_eq_true, if_false]
          omega
        · rw [if_neg hc]
          have := m2 hc
          have h3 : decide (yd / 31 + 1 ≥ 3) = false := by
            simp only [decide_eq_false_iff_not]; omega
          simp only [h3, Bool.false_eq_true, if_false]
          omega

theorem absDate_dayCount (a : Int) :
    dayCount (absDate a).1 (absDate a).2.1 (absDate a).2.2 = a / secondsPerDay
      ∧ 1 ≤ (absDate a).2.1 ∧ (absDate a).2.1 ≤ 12 := by
  obtain ⟨hsum, h0, hlt⟩ := splitYear_spec (a / secondsPerDay)
  obtain ⟨hm, hb⟩ := splitMonth_spec _ _ h0 hlt
  rw [absDate_eq]
  simp only [dayCount]
  exact ⟨by omega, hb⟩

theorem norm_12 (hi lo : Int) : norm hi lo 12 = (hi + lo / 12, lo % 12) := by
  unfold norm
  by_cases hneg : lo < 0
  · simp only [hneg, if_true]
    split_ifs with h
    · exfalso; omega
    · refine Prod.ext ?_ ?_ <;> (simp only; try omega)
  · simp only [hneg, if_false]
    split_ifs with h
    · refine Prod.ext ?_ ?_ <;> (simp only; try omega)
    · refine Prod.ext ?_ ?_ <;> (simp only; try omega)

theorem norm_60 (hi lo : Int) : norm hi lo 60 = (hi + lo / 60, lo % 60) := by
  unfold norm
  by_cases hneg : lo < 0
  · simp only [hneg, if_true]
    split_ifs with h
    · exfalso; omega
    · refine Prod.ext ?_ ?_ <;> (simp only; try omega)
  · simp only [hneg, if_false]
    split_ifs with h
    · refine Prod.ext ?_ ?_ <;> (simp only; try omega)
    · refine Prod.ext ?_ ?_ <;> (simp only; try omega)

theorem norm_24 (hi lo : Int) : norm hi lo 24 = (hi + lo / 24, lo % 24) := by
  unfold norm
  by_cases hneg : lo < 0
  · simp only [hneg, if_true]
    split_ifs with h
    · exfalso; omega
    · refine Prod.ext ?_ ?_ <;> (simp only; try omega)
  · simp only [hneg, if_false]
    split_ifs with h
    · refine Prod.ext ?_ ?_ <;> (simp only; try omega)
    · refine Prod.ext ?_ ?_ <;> (simp only; try omega)

theorem norm_nsec_zero (hi : Int) : norm hi 0 1000000000 = (hi, 0) := by
  simp [norm]

/-- The absolute second count of a time built by `Date` with a month in `1..12` and no
nanoseconds: the fields add up linearly, whatever their ranges. -/
theorem Date_abs (year month day hour min sec : Int) (loc : Location)
    (hm : 1 ≤ month ∧ month ≤ 12) :
    (Date year month day hour min sec 0 loc).abs
        = dayCount year month day * 86400 + hour * 3600 + min * 60 + sec
      ∧ (Date year month day hour min sec 0 loc).wall = 0
      ∧ (Date year month day hour min sec 0 loc).loc = loc := by
  have e12 : norm year (month - 1) 12 = (year, month - 1) := by
    rw [norm_12]
    refine Prod.ext ?_ ?_ <;> (simp only; try omega)
  unfold Date
  rw [e12]
  dsimp only
  rw [norm_nsec_zero]
  dsimp only
  simp only [norm_60, norm_24, Time.abs, dayCount, secondsPerDay, secondsPerHour,
    secondsPerMinute, and_true]
  have hc : month - 1 + 1 = month := by omega
  rw [hc]
  generalize daysSinceEpoch year = E
  generalize daysBefore (month - 1) = B
  generalize loc.lookup = off
  generalize (isLeap year && decide (month ≥ 3)) = c
  simp only [internalToUnix, internalToAbsolute]
  generalize unixToInternal = U
  generalize absoluteToInternal = A
  split_ifs <;> omega

theorem absClock_spec (a : Int) :
    (absClock a).1 * 3600 + (absClock a).2.1 * 60 + (absClock a).2.2 = a % 86400
      ∧ 0 ≤ (absClock a).2.2 ∧ (absClock a).2.2 < 60
      ∧ 0 ≤ (absClock a).2.1 ∧ (absClock a).2.1 < 60
      ∧ 0 ≤ (absClock a).1 ∧ (absClock a).1 < 24
      ∧ (absClock a).2.2 = a % 60 := by
  simp only [absClock, secondsPerDay, secondsPerHour, secondsPerMinute]
  omega

/-! ## Lemmas on `riseSetOffset` -/

theorem Time.Date_month_range (t : Time) : 1 ≤ t.Date.2.1 ∧ t.Date.2.1 ≤ 12 :=
  (absDate_dayCount t.abs).2

/-- Rebuilding a time from its own date and clock on a clock of the same UTC offset, with `k`
minutes added and the seconds replaced by `s`: the instant moves by `60 k + s` seconds from
the start of its minute. -/
theorem Date_of_fields_offset (t : Time) (k s : Int) (loc : Location)
    (hl : t.loc.lookup = loc.lookup) :
    (Date t.Date.1 t.Date.2.1 t.Date.2.2 t.Clock.1 (t.Clock.2.1 + k) s 0 loc).ext
        = t.ext - t.Clock.2.2 + 60 * k + s := by
  obtain ⟨habs, -, hloc⟩ := Date_abs t.Date.1 t.Date.2.1 t.Date.2.2 t.Clock.1
    (t.Clock.2.1 + k) s loc t.Date_month_range
  have hd := (absDate_dayCount t.abs).1
  have hc := (absClock_spec t.abs).1
  simp only [Time.Date, Time.Clock] at habs hloc ⊢
  rw [hd] at habs
  generalize Date (absDate t.abs).1 (absDate t.abs).2.1 (absDate t.abs).2.2 (absClock t.abs).1
    ((absClock t.abs).2.1 + k) s 0 loc = r at habs hloc ⊢
  have hr : r.abs = (r.ext + internalToUnix) + loc.lookup + (unixToInternal + internalToAbsolute) := by
    rw [Time.abs, hloc]
  have ht : t.abs = (t.ext + internalToUnix) + loc.lookup + (unixToInternal + internalToAbsolute) := by
    rw [Time.abs, hl]
  simp only [secondsPerDay, secondsPerHour, secondsPerMinute] at habs
  omega

/-- Rebuilding a time from its own date and clock in its own location, with `k` minutes added
and the seconds replaced by `s`: the instant moves by `60 k + s` seconds from the start of
its minute. -/
theorem Date_of_fields (t : Time) (k s : Int) (loc : Location) (hl : t.loc = loc) :
    (Date t.Date.1 t.Date.2.1 t.Date.2.2 t.Clock.1 (t.Clock.2.1 + k) s 0 loc).ext
        = t.ext - t.Clock.2.2 + 60 * k + s :=
  Date_of_fields_offset t k s loc (by rw [hl])

theorem riseSetOffset_eq (z : Zmanim) (t : Time) (n : Int) (r : Bool) (ht : t ≠ nilTime) :
    z.riseSetOffset t n r
      = Date t.Date.1 t.Date.2.1 t.Date.2.2 t.Clock.1
          (t.Clock.2.1 + (if r = true ∧ n > 0 ∧ t.Clock.2.2 ≥ 30 then n + 1 else n))
          (if r = true then 0 else t.Clock.2.2) 0 z.loc := by
  unfold Zmanim.riseSetOffset
  rw [if_neg ht]
  simp only [Bool.and_eq_true, decide_eq_true_eq]

/-! ## Lemmas on milliseconds and on truncation -/

/-- Go's truncating division by a positive literal, through the floor division. -/
theorem tdiv_eq (a b : Int) (hb : 0 < b) :
    Int.tdiv a b = if 0 ≤ a then a / b else -((-a) / b) := by
  split_ifs with h
  · exact Int.tdiv_eq_ediv h (le_of_lt hb)
  · have h1 : Int.tdiv a b = -(Int.tdiv (-a) b) := by rw [Int.neg_tdiv, neg_neg]
    rw [h1, Int.tdiv_eq_ediv (by omega) (le_of_lt hb)]

theorem tmod_eq (a b : Int) : Int.tmod a b = a - b * Int.tdiv a b := by
  have := Int.tmod_add_tdiv a b
  omega

theorem UnixMilli_UnixMilli (m : Int) (loc : Location) : (UnixMilli m loc).UnixMilli = m := by
  have hd := tdiv_eq m 1000 (by decide)
  have hm := tmod_eq m 1000
  unfold UnixMilli
  generalize Int.tdiv m 1000 = q at hd hm
  generalize Int.tmod m 1000 = r at hm
  have hq : 0 ≤ m → q = m / 1000 := fun h => by rw [hd, if_pos h]
  have hq2 : ¬ 0 ≤ m → q = -((-m) / 1000) := fun h => by rw [hd, if_neg h]
  clear hd
  have hr : -1000 < r ∧ r < 1000 := by
    by_cases h : 0 ≤ m
    · have := hq h; omega
    · have := hq2 h; omega
  have ht := tdiv_eq (r * 1000000) 1000000000 (by decide)
  unfold Unix
  by_cases hneg : r * 1000000 < 0
  · have hc : r * 1000000 < 0 ∨ r * 1000000 ≥ 1000000000 := Or.inl hneg
    rw [if_pos hc]
    have hz : Int.tdiv (r * 1000000) 1000000000 = 0 := by
      rw [ht, if_neg (by omega)]; omega
    simp only [hz, zero_mul, sub_zero, add_zero, if_pos hneg, Time.UnixMilli, internalToUnix]
    omega
  · have hc : ¬ (r * 1000000 < 0 ∨ r * 1000000 ≥ 1000000000) := by omega
    rw [if_neg hc]
    simp only [Time.UnixMilli, internalToUnix]
    omega

theorem UnixMilli_loc (m : Int) (loc : Location) : (UnixMilli m loc).loc = loc := by
  simp only [UnixMilli, Unix]
  split_ifs <;> rfl

theorem inLoc_UnixMilli (z : Zmanim) (t : Time) : (z.inLoc t).UnixMilli = t.UnixMilli := by
  unfold Zmanim.inLoc
  split_ifs <;> rfl

theorem truncate_intCast (n : Int) : truncate (n : ℚ) = n := by
  simp [truncate]

theorem truncate_of_nonneg (x : ℚ) (hx : 0 ≤ x) : truncate x = ⌊x⌋ := by
  rw [Rat.floor_def, truncate]
  exact Int.tdiv_eq_ediv (Rat.num_nonneg.mpr hx) (Int.natCast_nonneg _)

/-- Truncation of `H * (p / q)` for a non-negative `H`: the floor quotient `p * H / q`. -/
theorem truncate_mul_div (H : Int) (p q : ℕ) (hH : 0 ≤ H) :
    truncate ((H : ℚ) * ((p : ℚ) / (q : ℚ))) = (p : Int) * H / (q : Int) := by
  have hx : 0 ≤ (H : ℚ) * ((p : ℚ) / (q : ℚ)) := by
    have : (0 : ℚ) ≤ (H : ℚ) := by exact_mod_cast hH
    positivity
  rw [truncate_of_nonneg _ hx]
  have e : (H : ℚ) * ((p : ℚ) / (q : ℚ)) = (((p : Int) * H : Int) : ℚ) / (q : ℚ) := by
    push_cast
    ring
  rw [e, Rat.floor_intCast_div_natCast]

theorem hour_eq (sun : SunriseSunset) (z : Zmanim) :
    z.hour sun = Int.tdiv ((z.Sunset sun).UnixMilli - (z.Sunrise sun).UnixMilli) 12 := by
  simp only [Zmanim.hour, Zmanim.Sunset, Zmanim.Sunrise, inLoc_UnixMilli]

theorem hourOffset_UnixMilli (sun : SunriseSunset) (z : Zmanim) (hours : ℚ) :
    (z.hourOffset sun hours).UnixMilli
      = (z.Sunrise sun).UnixMilli + truncate ((z.hour sun : ℚ) * hours) := by
  simp only [Zmanim.hourOffset, UnixMilli_UnixMilli]

/-! ## Lemmas on offsets from sunrise and sunset -/

theorem inLoc_loc (z : Zmanim) (t : Time) (h : z.inLoc t ≠ nilTime) : (z.inLoc t).loc = z.loc := by
  unfold Zmanim.inLoc at h ⊢
  split_ifs with c
  · rw [if_pos c] at h
    exact absurd c h
  · rfl

theorem Sunrise_loc (sun : SunriseSunset) (z : Zmanim) (h : z.Sunrise sun ≠ nilTime) :
    (z.Sunrise sun).loc = z.loc := inLoc_loc z _ h

theorem Sunset_loc (sun : SunriseSunset) (z : Zmanim) (h : z.Sunset sun ≠ nilTime) :
    (z.Sunset sun).loc = z.loc := inLoc_loc z _ h

/-- The instant of `riseSetOffset`, for a base time in the zone of the day: the nanoseconds
are dropped; without rounding the seconds are kept, with rounding they are dropped and a
positive offset grows by one minute when they are 30 or more. -/
theorem riseSetOffset_ext (z : Zmanim) (t : Time) (n : Int) (r : Bool) (ht : t ≠ nilTime)
    (hl : t.loc = z.loc) :
    (z.riseSetOffset t n r).ext
        = t.ext - t.Clock.2.2
          + 60 * (if r = true ∧ n > 0 ∧ t.Clock.2.2 ≥ 30 then n + 1 else n)
          + (if r = true then 0 else t.Clock.2.2)
      ∧ (z.riseSetOffset t n r).wall = 0
      ∧ (z.riseSetOffset t n r).loc = z.loc := by
  rw [riseSetOffset_eq z t n r ht]
  exact ⟨Date_of_fields t _ _ z.loc hl, (Date_abs _ _ _ _ _ _ _ t.Date_month_range).2.1,
    (Date_abs _ _ _ _ _ _ _ t.Date_month_range).2.2⟩

/-- Across a clock change the rounded offset is not near the base time plus the offset: a
time 22:30:45 on 2022-03-12 on a clock five hours behind UTC, with offset 300 in a zone whose
clock is four hours behind UTC at the result, gives 03:31:00, which is 3585 seconds before
the base time plus 300 minutes. -/
theorem riseSetOffset_across_clock_change :
    ((Unix 1647142245 0 (Location.Fixed (-18000))).UnixMilli + 300 * 60000)
      - (({ sampleDay with Year := 2022, Month := 3, Day := 12 } : Zmanim).riseSetOffset
          (Unix 1647142245 0 (Location.Fixed (-18000))) 300 true).UnixMilli = 3585000 := by
  decide

/-- Milliseconds of the unrounded offset: the base time, cut to the whole second, plus the
minutes. -/
theorem riseSetOffset_unrounded_UnixMilli (z : Zmanim) (t : Time) (n : Int) (ht : t ≠ nilTime)
    (hl : t.loc = z.loc) :
    (z.riseSetOffset t n false).UnixMilli = t.UnixMilli - t.wall / 1000000 + n * 60000 := by
  obtain ⟨he, hw, -⟩ := riseSetOffset_ext z t n false ht hl
  simp only [Bool.false_eq_true, false_and, if_false] at he
  simp only [Time.UnixMilli, he, hw]
  omega

theorem sofZmanMGA_UnixMilli (sun : SunriseSunset) (z : Zmanim) (k : Int) :
    (z.sofZmanMGA sun k).UnixMilli
      = (z.SunriseOffset sun (-72) false).UnixMilli
        + k * Int.tdiv ((z.SunsetOffset sun 72 false).UnixMilli
            - (z.SunriseOffset sun (-72) false).UnixMilli) 12 := by
  simp only [Zmanim.sofZmanMGA, UnixMilli_UnixMilli]

/-! ## Lemmas on the Mishna Yomi index -/

theorem chapterVerses_length (t : String) (c : Int) (n : Nat) :
    (chapterVerses t c n).length = n := by
  induction n with
  | zero => rfl
  | succ k ih => simp [chapterVerses, ih]

theorem chapterVerses_at (t : String) (c : Int) (n i : Nat) (h : i < n) :
    (chapterVerses t c n)[i]? = some { Tractate := t, Chap := c, Verse := (i : Int) + 1 } := by
  induction n with
  | zero => omega
  | succ k ih =>
    rw [chapterVerses]
    by_cases hk : i < k
    · rw [List.getElem?_append_left (by rw [chapterVerses_length]; exact hk)]
      exact ih hk
    · have e : i = k := by omega
      subst e
      rw [List.getElem?_append_right (by rw [chapterVerses_length])]
      simp [chapterVerses_length]

theorem tractateVerses_length (t : String) (c : Int) (v : List Nat) :
    (tractateVerses t c v).length = v.sum := by
  induction v generalizing c with
  | nil => rfl
  | cons n rest ih => simp [tractateVerses, chapterVerses_length, ih]

theorem tractateVerses_at (t : String) (c : Int) (v : List Nat) (i : Nat) :
    (tractateVerses t c v)[i]? = verseAt t c v i := by
  induction v generalizing c i with
  | nil => simp [tractateVerses, verseAt]
  | cons n rest ih =>
    rw [tractateVerses, verseAt]
    split_ifs with h
    · rw [List.getElem?_append_left (by rw [chapterVerses_length]; exact h)]
      exact chapterVerses_at t c n i h
    · rw [List.getElem?_append_right (by rw [chapterVerses_length]; omega),
        chapterVerses_length]
      exact ih (c + 1) (i - n)

theorem flattenMishna_length (tbl : List (String × List Nat)) :
    (flattenMishna tbl).length = mishnaCount tbl := by
  induction tbl with
  | nil => rfl
  | cons p rest ih =>
    obtain ⟨k, v⟩ := p
    simp [flattenMishna, mishnaCount, tractateVerses_length, ih]

theorem flattenMishna_at (tbl : List (String × List Nat)) (i : Nat) :
    (flattenMishna tbl)[i]? = mishnaAt tbl i := by
  induction tbl generalizing i with
  | nil => simp [flattenMishna, mishnaAt]
  | cons p rest ih =>
    obtain ⟨k, v⟩ := p
    rw [flattenMishna, mishnaAt]
    split_ifs with h
    · rw [List.getElem?_append_left (by rw [tractateVerses_length]; exact h)]
      exact tractateVerses_at k 1 v i
    · rw [List.getElem?_append_right (by rw [tractateVerses_length]; omega),
        tractateVerses_length]
      exact ih (i - v.sum)

theorem mishnaPairs_length (l : List Mishna) : (mishnaPairs l).length = l.length / 2 := by
  induction l using mishnaPairs.induct with
  | case1 a b rest ih =>
    simp only [mishnaPairs, List.length_cons, ih]
    omega
  | case2 l h =>
    match l, h with
    | [], _ => rfl
    | [a], _ => simp [mishnaPairs]
    | a :: b :: rest, h => exact absurd rfl (h a b rest)

/-- Day `n` of the index holds the mishnayot at the positions `2 n` and `2 n + 1`. -/
theorem mishnaPairs_at (l : List Mishna) (n : Nat) (a b : Mishna)
    (ha : l[2 * n]? = some a) (hb : l[2 * n + 1]? = some b) :
    (mishnaPairs l)[n]? = some (a, b) := by
  induction n generalizing l with
  | zero =>
    match l, ha, hb with
    | x :: y :: rest, ha, hb =>
      simp only [Nat.mul_zero, List.getElem?_cons_zero, Option.some.injEq, Nat.zero_add,
        List.getElem?_cons_succ] at ha hb
      simp [mishnaPairs, ha, hb]
  | succ k ih =>
    match l, ha, hb with
    | x :: y :: rest, ha, hb =>
      have e1 : 2 * (k + 1) = (2 * k + 1) + 1 := by omega
      have e2 : 2 * (k + 1) + 1 = ((2 * k + 1) + 1) + 1 := by omega
      rw [e1, List.getElem?_cons_succ, List.getElem?_cons_succ] at ha
      rw [e2, List.getElem?_cons_succ, List.getElem?_cons_succ] at hb
      rw [mishnaPairs, List.getElem?_cons_succ]
      exact ih rest ha hb

theorem mishnaCount_mishnayot : mishnaCount mishnayot = 4192 := by decide

theorem MakeMishnaYomiIndex_length : MakeMishnaYomiIndex.length = 2096 := by
  rw [MakeMishnaYomiIndex, mishnaPairs_length, flattenMishna_length, mishnaCount_mishnayot]

theorem Lookup_of_positions (abs : Int) (a b : Mishna) (h : mishnaYomiStart ≤ abs)
    (ha : (flattenMishna mishnayot)[2 * ((abs - mishnaYomiStart) % 2096).toNat]? = some a)
    (hb : (flattenMishna mishnayot)[2 * ((abs - mishnaYomiStart) % 2096).toNat + 1]? = some b) :
    MishnaYomiIndex.Lookup MakeMishnaYomiIndex abs = .ok (a, b) := by
  have hp := mishnaPairs_at (flattenMishna mishnayot) _ a b ha hb
  unfold MishnaYomiIndex.Lookup
  rw [if_neg (by omega), MakeMishnaYomiIndex_length]
  simp only [Nat.cast_ofNat]
  rw [MakeMishnaYomiIndex, hp]

theorem Lookup_of_mishnaAt (abs : Int) (a b : Mishna) (h : mishnaYomiStart ≤ abs)
    (ha : mishnaAt mishnayot (2 * ((abs - mishnaYomiStart) % 2096).toNat) = some a)
    (hb : mishnaAt mishnayot (2 * ((abs - mishnaYomiStart) % 2096).toNat + 1) = some b) :
    MishnaYomiIndex.Lookup MakeMishnaYomiIndex abs = .ok (a, b) :=
  Lookup_of_positions abs a b h (by rw [flattenMishna_at]; exact ha)
    (by rw [flattenMishna_at]; exact hb)

/-! ## Lemmas on the day without sunrise -/

theorem UnixMilli_zero_instant (loc : Location) :
    UnixMilli nilTime.UnixMilli loc = { wall := 0, ext := 0, loc := loc } := by
  rfl

theorem hour_of_null (sun : SunriseSunset) (z : Zmanim)
    (h : sun z.Latitude z.Longitude z.Year z.Month z.Day = (nilTime, nilTime)) :
    z.hour sun = 0 := by
  simp only [Zmanim.hour, h]
  rfl

theorem Sunrise_of_null (sun : SunriseSunset) (z : Zmanim)
    (h : sun z.Latitude z.Longitude z.Year z.Month z.Day = (nilTime, nilTime)) :
    z.Sunrise sun = nilTime := by
  simp only [Zmanim.Sunrise, h, Zmanim.inLoc, if_true]

theorem Sunset_of_null (sun : SunriseSunset) (z : Zmanim)
    (h : sun z.Latitude z.Longitude z.Year z.Month z.Day = (nilTime, nilTime)) :
    z.Sunset sun = nilTime := by
  simp only [Zmanim.Sunset, h, Zmanim.inLoc, if_true]

theorem hourOffset_of_null (sun : SunriseSunset) (z : Zmanim) (k : ℚ)
    (h : sun z.Latitude z.Longitude z.Year z.Month z.Day = (nilTime, nilTime)) :
    z.hourOffset sun k = { wall := 0, ext := 0, loc := z.loc } := by
  have e : truncate (((0 : Int) : ℚ) * k) = 0 := by simp [truncate]
  simp only [Zmanim.hourOffset, hour_of_null sun z h, Sunrise_of_null sun z h, e, add_zero]
  exact UnixMilli_zero_instant z.loc

theorem sofZmanMGA_of_null (sun : SunriseSunset) (z : Zmanim) (k : Int)
    (h : sun z.Latitude z.Longitude z.Year z.Month z.Day = (nilTime, nilTime)) :
    z.sofZmanMGA sun k = { wall := 0, ext := 0, loc := z.loc } := by
  have e1 : z.SunriseOffset sun (-72) false = nilTime := by
    simp only [Zmanim.SunriseOffset, Sunrise_of_null sun z h, Zmanim.riseSetOffset, if_true]
  have e2 : z.SunsetOffset sun 72 false = nilTime := by
    simp only [Zmanim.SunsetOffset, Sunset_of_null sun z h, Zmanim.riseSetOffset, if_true]
  have e3 : Int.tdiv (nilTime.UnixMilli - nilTime.UnixMilli) 12 = 0 := by
    rw [sub_self]; rfl
  simp only [Zmanim.sofZmanMGA, e1, e2, e3, mul_zero, add_zero]
  exact UnixMilli_zero_instant z.loc

/-! ## Lemmas on the omer event -/

theorem newOmerEvent_ok (hd : HDate) (omerDay : Int) (h : 1 ≤ omerDay ∧ omerDay ≤ 49) :
    newOmerEvent hd omerDay
      = .ok { Date := hd, OmerDay := omerDay, WeekNumber := (omerDay - 1) / 7 + 1,
              DaysWithinWeeks := if omerDay % 7 = 0 then 7 else omerDay % 7 } := by
  unfold newOmerEvent
  rw [if_neg (by omega)]
  have e1 : Int.tdiv (omerDay - 1) 7 = (omerDay - 1) / 7 := by
    rw [tdiv_eq _ 7 (by decide), if_pos (by omega)]
  have e2 : Int.tmod omerDay 7 = omerDay % 7 := by
    rw [tmod_eq, tdiv_eq _ 7 (by decide), if_pos (by omega)]
    omega
  simp only [e1, e2]

theorem index_sefirot (i : Int) (h : 1 ≤ i ∧ i ≤ 7) : ∃ s, index sefirot i = .ok s := by
  refine ⟨sefirot.getD i.toNat "", ?_⟩
  unfold index
  rw [if_pos]
  simp only [sefirot, List.length_cons, List.length_nil]
  omega

theorem index_sefirotTranslit (i : Int) (h : 1 ≤ i ∧ i ≤ 7) :
    ∃ s, index sefirotTranslit i = .ok s := by
  refine ⟨sefirotTranslit.getD i.toNat "", ?_⟩
  unfold index
  rw [if_pos]
  simp only [sefirotTranslit, List.length_cons, List.length_nil]
  omega

/-- With week and day in `1..7` no table lookup of `Sefira` panics. -/
theorem Sefira_ok (LookupTranslation : String → String → String) (ev : omerEvent)
    (locale : String) (hw : 1 ≤ ev.WeekNumber ∧ ev.WeekNumber ≤ 7)
    (hd : 1 ≤ ev.DaysWithinWeeks ∧ ev.DaysWithinWeeks ≤ 7) :
    ∃ s, ev.Sefira LookupTranslation locale = .ok s := by
  obtain ⟨s1, h1⟩ := index_sefirot _ hw
  obtain ⟨s2, h2⟩ := index_sefirot _ hd
  obtain ⟨s3, h3⟩ := index_sefirotTranslit _ hw
  obtain ⟨s4, h4⟩ := index_sefirotTranslit _ hd
  unfold omerEvent.Sefira
  rw [h1, h2, h3, h4]
  simp only [bind, Except.bind, pure, Except.pure]
  split_ifs <;> exact ⟨_, rfl⟩

/-! ## Lemmas on the order of the zmanim -/

theorem truncate_neg (x : ℚ) : truncate (-x) = -truncate x := by
  simp only [truncate, Rat.num_neg_eq_neg_num, Rat.den_neg_eq_den, Int.neg_tdiv]

/-- Truncation toward zero never reverses an order. -/
theorem truncate_mono (x y : ℚ) (h : x ≤ y) : truncate x ≤ truncate y := by
  by_cases hx : 0 ≤ x
  · rw [truncate_of_nonneg x hx, truncate_of_nonneg y (le_trans hx h)]
    exact Int.floor_mono h
  · have hx2 : 0 ≤ -x := by linarith
    have ex : truncate x = -⌊-x⌋ := by
      rw [← truncate_of_nonneg _ hx2, truncate_neg, neg_neg]
    by_cases hy : 0 ≤ y
    · rw [ex, truncate_of_nonneg y hy]
      have h1 : (0 : Int) ≤ ⌊-x⌋ := Int.floor_nonneg.mpr hx2
      have h2 : (0 : Int) ≤ ⌊y⌋ := Int.floor_nonneg.mpr hy
      omega
    · have hy2 : 0 ≤ -y := by linarith
      have ey : truncate y = -⌊-y⌋ := by
        rw [← truncate_of_nonneg _ hy2, truncate_neg, neg_neg]
      rw [ex, ey]
      have : ⌊-y⌋ ≤ ⌊-x⌋ := Int.floor_mono (by linarith)
      omega

theorem hour_of_le (sun : SunriseSunset) (z : Zmanim)
    (h : (z.Sunrise sun).UnixMilli ≤ (z.Sunset sun).UnixMilli) :
    z.hour sun = ((z.Sunset sun).UnixMilli - (z.Sunrise sun).UnixMilli) / 12 := by
  rw [hour_eq, tdiv_eq _ 12 (by decide), if_pos (by omega)]

/-- Milliseconds of `hourOffset (p / q)` when the halachic hour is not negative. -/
theorem hourOffset_mul_div (sun : SunriseSunset) (z : Zmanim) (p q : ℕ)
    (h0 : 0 ≤ z.hour sun) :
    (z.hourOffset sun ((p : ℚ) / (q : ℚ))).UnixMilli
      = (z.Sunrise sun).UnixMilli + (p : Int) * z.hour sun / (q : Int) := by
  rw [hourOffset_UnixMilli, truncate_mul_div _ p q h0]

/-! ## Claims -/

/-- C2. The Gra zmanim: on a day with sunrise ≤ sunset the halachic hour `H` is
`(sunset − sunrise) / 12` in whole milliseconds, every `hourOffset k` is sunrise plus
`trunc (k · H)` milliseconds, and for the six named zmanim that is `3 H`, `4 H`, `6 H`,
`⌊13 H / 2⌋`, `⌊19 H / 2⌋` and `⌊43 H / 4⌋`. -/
theorem C2_gra_zmanim (sun : SunriseSunset) (z : Zmanim)
    (h : (z.Sunrise sun).UnixMilli ≤ (z.Sunset sun).UnixMilli) :
    z.hour sun = ((z.Sunset sun).UnixMilli - (z.Sunrise sun).UnixMilli) / 12
      ∧ (∀ k : ℚ, (z.hourOffset sun k).UnixMilli
          = (z.Sunrise sun).UnixMilli + truncate ((z.hour sun : ℚ) * k))
      ∧ (z.SofZmanShma sun).UnixMilli = (z.Sunrise sun).UnixMilli + 3 * z.hour sun
      ∧ (z.SofZmanTfilla sun).UnixMilli = (z.Sunrise sun).UnixMilli + 4 * z.hour sun
      ∧ (z.Chatzot sun).UnixMilli = (z.Sunrise sun).UnixMilli + 6 * z.hour sun
      ∧ (z.MinchaGedola sun).UnixMilli = (z.Sunrise sun).UnixMilli + 13 * z.hour sun / 2
      ∧ (z.MinchaKetana sun).UnixMilli = (z.Sunrise sun).UnixMilli + 19 * z.hour sun / 2
      ∧ (z.PlagHaMincha sun).UnixMilli = (z.Sunrise sun).UnixMilli + 43 * z.hour sun / 4 := by
  have hH : z.hour sun = ((z.Sunset sun).UnixMilli - (z.Sunrise sun).UnixMilli) / 12 := by
    rw [hour_eq, tdiv_eq _ 12 (by decide), if_pos (by omega)]
  have h0 : 0 ≤ z.hour sun := by rw [hH]; omega
  have t3 := truncate_mul_div (z.hour sun) 3 1 h0
  have t4 := truncate_mul_div (z.hour sun) 4 1 h0
  have t6 := truncate_mul_div (z.hour sun) 6 1 h0
  have t13 := truncate_mul_div (z.hour sun) 13 2 h0
  have t19 := truncate_mul_div (z.hour sun) 19 2 h0
  have t43 := truncate_mul_div (z.hour sun) 43 4 h0
  simp only [Nat.cast_ofNat, Nat.cast_one, div_one, Int.ediv_one] at t3 t4 t6 t13 t19 t43
  refine ⟨hH, fun k => hourOffset_UnixMilli sun z k, ?_, ?_, ?_, ?_, ?_, ?_⟩
  · rw [Zmanim.SofZmanShma, hourOffset_UnixMilli, t3]
  · rw [Zmanim.SofZmanTfilla, hourOffset_UnixMilli, t4]
  · rw [Zmanim.Chatzot, hourOffset_UnixMilli, t6]
  · rw [Zmanim.MinchaGedola, hourOffset_UnixMilli, t13]
  · rw [Zmanim.MinchaKetana, hourOffset_UnixMilli, t19]
  · rw [Zmanim.PlagHaMincha, hourOffset_UnixMilli, t43]

/-- C2 on the sample day: sunrise 05:25:10, sunset 20:30:45; the halachic hour has
4527916 ms and Plag haMincha is 48675097 ms after sunrise. -/
theorem C2_gra_zmanim_witness :
    (sampleDay.Sunrise sampleSun).UnixMilli ≤ (sampleDay.Sunset sampleSun).UnixMilli
      ∧ sampleDay.hour sampleSun = 4527916
      ∧ (sampleDay.SofZmanShma sampleSun).UnixMilli = 1655803510000 + 13583748
      ∧ (sampleDay.PlagHaMincha sampleSun).UnixMilli = 1655803510000 + 48675097 := by
  have h := C2_gra_zmanim sampleSun sampleDay (by decide)
  refine ⟨by decide, by decide, ?_, ?_⟩
  · rw [h.2.2.1]; decide
  · rw [h.2.2.2.2.2.2.2]; decide

/-- C3, refuted as stated: on the sample day (sunrise 05:25:10, sunset 20:30:45) the day has
54335000 ms, the halachic hour is truncated to 4527916 ms, and Chatzot is 27167496 ms after
sunrise but 27167504 ms before sunset. -/
theorem C3_chatzot_midpoint_counterexample :
    (sampleDay.Sunrise sampleSun).UnixMilli ≤ (sampleDay.Sunset sampleSun).UnixMilli
      ∧ (sampleDay.Chatzot sampleSun).UnixMilli - (sampleDay.Sunrise sampleSun).UnixMilli
          = 27167496
      ∧ (sampleDay.Sunset sampleSun).UnixMilli - (sampleDay.Chatzot sampleSun).UnixMilli
          = 27167504
      ∧ (sampleDay.Chatzot sampleSun).UnixMilli - (sampleDay.Sunrise sampleSun).UnixMilli
          ≠ (sampleDay.Sunset sampleSun).UnixMilli - (sampleDay.Chatzot sampleSun).UnixMilli := by
  have e : (sampleDay.Chatzot sampleSun).UnixMilli = 1655830677496 := by
    rw [Zmanim.Chatzot, hourOffset_UnixMilli]
    have t := truncate_mul_div (sampleDay.hour sampleSun) 6 1 (by decide)
    simp only [Nat.cast_ofNat, Nat.cast_one, div_one, Int.ediv_one] at t
    rw [t]
    decide
  rw [e]
  decide

/-- C3, amended. On a day with sunrise ≤ sunset, Chatzot lies between sunrise and sunset and
is the midpoint up to the truncation of the halachic hour: the time from Chatzot to sunset
exceeds the time from sunrise to Chatzot by `(sunset − sunrise) mod 12` milliseconds (0 to 11),
and the two are equal exactly when the length of the day is a multiple of 12 ms. -/
theorem C3_chatzot_midpoint_amended (sun : SunriseSunset) (z : Zmanim)
    (h : (z.Sunrise sun).UnixMilli ≤ (z.Sunset sun).UnixMilli) :
    ((z.Sunset sun).UnixMilli - (z.Chatzot sun).UnixMilli)
        - ((z.Chatzot sun).UnixMilli - (z.Sunrise sun).UnixMilli)
        = ((z.Sunset sun).UnixMilli - (z.Sunrise sun).UnixMilli) % 12
      ∧ (z.Sunrise sun).UnixMilli ≤ (z.Chatzot sun).UnixMilli
      ∧ (z.Chatzot sun).UnixMilli ≤ (z.Sunset sun).UnixMilli
      ∧ ((z.Chatzot sun).UnixMilli - (z.Sunrise sun).UnixMilli
            = (z.Sunset sun).UnixMilli - (z.Chatzot sun).UnixMilli
          ↔ ((z.Sunset sun).UnixMilli - (z.Sunrise sun).UnixMilli) % 12 = 0) := by
  have hH : z.hour sun = ((z.Sunset sun).UnixMilli - (z.Sunrise sun).UnixMilli) / 12 := by
    rw [hour_eq, tdiv_eq _ 12 (by decide), if_pos (by omega)]
  have h0 : 0 ≤ z.hour sun := by rw [hH]; omega
  have t6 := truncate_mul_div (z.hour sun) 6 1 h0
  simp only [Nat.cast_ofNat, Nat.cast_one, div_one, Int.ediv_one] at t6
  have e : (z.Chatzot sun).UnixMilli = (z.Sunrise sun).UnixMilli + 6 * z.hour sun := by
    rw [Zmanim.Chatzot, hourOffset_UnixMilli, t6]
  rw [e, hH]
  omega

/-- C3 amended, on the sample day: the two halves of the day differ by 8 ms. -/
theorem C3_chatzot_midpoint_amended_witness :
    (sampleDay.Sunrise sampleSun).UnixMilli ≤ (sampleDay.Sunset sampleSun).UnixMilli
      ∧ ((sampleDay.Sunset sampleSun).UnixMilli - (sampleDay.Chatzot sampleSun).UnixMilli)
        - ((sampleDay.Chatzot sampleSun).UnixMilli - (sampleDay.Sunrise sampleSun).UnixMilli)
        = 8 := by
  have h := C3_chatzot_midpoint_amended sampleSun sampleDay (by decide)
  refine ⟨by decide, ?_⟩
  rw [h.1]
  decide

/-- C4. The MGA zmanim: with `A = SunriseOffset(-72, false)` and `B = SunsetOffset(72, false)`
in milliseconds, `SofZmanShmaMGA` is `A + 3 · ((B − A) / 12)` and `SofZmanTfillaMGA` is
`A + 4 · ((B − A) / 12)`, the quotient being Go's integer division; and on a day with a
sunrise (a sunset), `A` is sunrise minus 72 minutes (`B` is sunset plus 72 minutes), counted
from the whole second of the sunrise (sunset), the solar computation giving whole seconds. -/
theorem C4_sofZmanMGA (sun : SunriseSunset) (z : Zmanim) :
    (z.SofZmanShmaMGA sun).UnixMilli
        = (z.SunriseOffset sun (-72) false).UnixMilli
          + 3 * Int.tdiv ((z.SunsetOffset sun 72 false).UnixMilli
              - (z.SunriseOffset sun (-72) false).UnixMilli) 12
      ∧ (z.SofZmanTfillaMGA sun).UnixMilli
        = (z.SunriseOffset sun (-72) false).UnixMilli
          + 4 * Int.tdiv ((z.SunsetOffset sun 72 false).UnixMilli
              - (z.SunriseOffset sun (-72) false).UnixMilli) 12
      ∧ (z.Sunrise sun ≠ nilTime →
          (z.SunriseOffset sun (-72) false).UnixMilli
            = (z.Sunrise sun).UnixMilli - (z.Sunrise sun).wall / 1000000 - 72 * 60000)
      ∧ (z.Sunset sun ≠ nilTime →
          (z.SunsetOffset sun 72 false).UnixMilli
            = (z.Sunset sun).UnixMilli - (z.Sunset sun).wall / 1000000 + 72 * 60000)
      ∧ ((z.SunriseOffset sun (-72) false).UnixMilli ≤ (z.SunsetOffset sun 72 false).UnixMilli →
          Int.tdiv ((z.SunsetOffset sun 72 false).UnixMilli
              - (z.SunriseOffset sun (-72) false).UnixMilli) 12
            = ((z.SunsetOffset sun 72 false).UnixMilli
              - (z.SunriseOffset sun (-72) false).UnixMilli) / 12) := by
  refine ⟨sofZmanMGA_UnixMilli sun z 3, sofZmanMGA_UnixMilli sun z 4, ?_, ?_, ?_⟩
  · intro h
    rw [Zmanim.SunriseOffset, riseSetOffset_unrounded_UnixMilli z _ _ h (Sunrise_loc sun z h)]
    omega
  · intro h
    rw [Zmanim.SunsetOffset, riseSetOffset_unrounded_UnixMilli z _ _ h (Sunset_loc sun z h)]
  · intro h
    rw [tdiv_eq _ 12 (by decide), if_pos (by omega)]

/-- C4 on the sample day: `A` is 04:13:10, `B` is 21:42:45, the MGA hour has 5247916 ms. -/
theorem C4_sofZmanMGA_witness :
    sampleDay.Sunrise sampleSun ≠ nilTime ∧ sampleDay.Sunset sampleSun ≠ nilTime
      ∧ (sampleDay.SunriseOffset sampleSun (-72) false).UnixMilli = 1655803510000 - 4320000
      ∧ (sampleDay.SunsetOffset sampleSun 72 false).UnixMilli = 1655857845000 + 4320000
      ∧ (sampleDay.SofZmanShmaMGA sampleSun).UnixMilli = 1655799190000 + 3 * 5247916 := by
  have h := C4_sofZmanMGA sampleSun sampleDay
  refine ⟨by decide, by decide, ?_, ?_, ?_⟩
  · rw [h.2.2.1 (by decide)]; decide
  · rw [h.2.2.2.1 (by decide)]; decide
  · rw [h.1, h.2.2.1 (by decide), h.2.2.2.1 (by decide)]; decide

/-- C5, refuted as stated: on the sample day the previous sunset is 20:30:47 and the sunrise
05:25:10, a night of 32063000 ms; the night hour is truncated to 2671916 ms and
`ChatzotNight`, counted back from the sunrise, is 8 ms after the previous sunset plus six
night hours. -/
theorem C5_chatzotNight_counterexample :
    (sampleDay.GregEve sampleSun).UnixMilli ≤ (sampleDay.Sunrise sampleSun).UnixMilli
      ∧ sampleDay.nightHour sampleSun = 2671916
      ∧ (sampleDay.ChatzotNight sampleSun).UnixMilli
          = (sampleDay.GregEve sampleSun).UnixMilli + 6 * sampleDay.nightHour sampleSun + 8
      ∧ (sampleDay.ChatzotNight sampleSun).UnixMilli
          ≠ (sampleDay.GregEve sampleSun).UnixMilli + 6 * sampleDay.nightHour sampleSun := by
  have e : (sampleDay.ChatzotNight sampleSun).UnixMilli = 1655787478504 := by
    simp only [Zmanim.ChatzotNight, UnixMilli_UnixMilli]
    decide
  rw [e]
  decide

/-- C5, amended. `ChatzotNight` is the sunrise minus six night hours, a night hour being
`(Sunrise − GregEve) / 12` in whole milliseconds; on a day with `GregEve ≤ Sunrise` it is the
previous sunset plus six night hours plus `(Sunrise − GregEve) mod 12` milliseconds (0 to 11),
so the two agree exactly when the length of the night is a multiple of 12 ms. -/
theorem C5_chatzotNight_amended (sun : SunriseSunset) (z : Zmanim)
    (h : (z.GregEve sun).UnixMilli ≤ (z.Sunrise sun).UnixMilli) :
    z.nightHour sun = ((z.Sunrise sun).UnixMilli - (z.GregEve sun).UnixMilli) / 12
      ∧ (z.ChatzotNight sun).UnixMilli = (z.Sunrise sun).UnixMilli - 6 * z.nightHour sun
      ∧ (z.ChatzotNight sun).UnixMilli
          = (z.GregEve sun).UnixMilli + 6 * z.nightHour sun
            + ((z.Sunrise sun).UnixMilli - (z.GregEve sun).UnixMilli) % 12
      ∧ ((z.ChatzotNight sun).UnixMilli = (z.GregEve sun).UnixMilli + 6 * z.nightHour sun
          ↔ ((z.Sunrise sun).UnixMilli - (z.GregEve sun).UnixMilli) % 12 = 0) := by
  have hH : z.nightHour sun = ((z.Sunrise sun).UnixMilli - (z.GregEve sun).UnixMilli) / 12 := by
    simp only [Zmanim.nightHour]
    rw [tdiv_eq _ 12 (by decide), if_pos (by omega)]
  have e : (z.ChatzotNight sun).UnixMilli = (z.Sunrise sun).UnixMilli - 6 * z.nightHour sun := by
    simp only [Zmanim.ChatzotNight, UnixMilli_UnixMilli]
    omega
  rw [e, hH]
  omega

/-- C5 amended, on the sample day. -/
theorem C5_chatzotNight_amended_witness :
    (sampleDay.GregEve sampleSun).UnixMilli ≤ (sampleDay.Sunrise sampleSun).UnixMilli
      ∧ (sampleDay.ChatzotNight sampleSun).UnixMilli
          = (sampleDay.Sunrise sampleSun).UnixMilli - 6 * sampleDay.nightHour sampleSun :=
  ⟨by decide, (C5_chatzotNight_amended sampleSun sampleDay (by decide)).2.1⟩

/-- C6. When the solar computation yields the null time for the day, `Sunrise`, `Sunset`,
`SunriseOffset n r` and `SunsetOffset n r` are the null time `time.Time{}` itself, for every
offset `n` and rounding flag `r`: neither the zone nor the offset nor the rounding touches it. -/
theorem C6_null_time (sun : SunriseSunset) (z : Zmanim) (n : Int) (r : Bool)
    (h : sun z.Latitude z.Longitude z.Year z.Month z.Day = (nilTime, nilTime)) :
    z.Sunrise sun = nilTime ∧ z.Sunset sun = nilTime
      ∧ z.SunriseOffset sun n r = nilTime ∧ z.SunsetOffset sun n r = nilTime := by
  have hr : z.Sunrise sun = nilTime := by
    simp only [Zmanim.Sunrise, h, Zmanim.inLoc, if_true]
  have hs : z.Sunset sun = nilTime := by
    simp only [Zmanim.Sunset, h, Zmanim.inLoc, if_true]
  refine ⟨hr, hs, ?_, ?_⟩
  · simp only [Zmanim.SunriseOffset, hr, Zmanim.riseSetOffset, if_true]
  · simp only [Zmanim.SunsetOffset, hs, Zmanim.riseSetOffset, if_true]

/-- C6 on a polar day in the zone of the sample day, with offset -18 and rounding. -/
theorem C6_null_time_witness :
    polarSun sampleDay.Latitude sampleDay.Longitude sampleDay.Year sampleDay.Month sampleDay.Day
        = (nilTime, nilTime)
      ∧ sampleDay.Sunrise polarSun = nilTime ∧ sampleDay.Sunset polarSun = nilTime
      ∧ sampleDay.SunriseOffset polarSun (-18) true = nilTime
      ∧ sampleDay.SunsetOffset polarSun (-18) true = nilTime :=
  ⟨rfl, C6_null_time polarSun sampleDay (-18) true rfl⟩

/-- C8. `parseGregOrHebMonth` with a month argument that is not a number and that
`MonthFromName` recognises as the month `hm`: no exit; the Hebrew month is set to Adar1 when
`hm` is Adar2 and the year is not a leap year, and to `hm` itself otherwise (Adar2 in a leap
year, every other month in every year); `IsHebrewYear` is set to true and the Gregorian month
is left as it was. -/
theorem C8_parse_hebrew_month (Atoi : String → Option Int)
    (MonthFromName : String → Option HMonth) (IsLeap : Int → Bool) (st : MonthArgs)
    (theYear : Int) (arg : String) (hm : HMonth)
    (hnum : Atoi arg = none) (hname : MonthFromName arg = some hm) :
    parseGregOrHebMonth Atoi MonthFromName IsLeap st theYear arg
      = .ok { IsHebrewYear := true, gregMonth := st.gregMonth,
              hebMonth := if hm = HMonth.Adar2 ∧ IsLeap theYear = false then HMonth.Adar1
                          else hm } := by
  unfold parseGregOrHebMonth
  rw [hnum]
  simp only [hname]
  by_cases c : hm = HMonth.Adar2 ∧ IsLeap theYear = false
  · have c2 : hm = HMonth.Adar2 ∧ ¬ IsLeap theYear = true := ⟨c.1, by simp [c.2]⟩
    rw [if_pos c, if_pos c2]
  · have c2 : ¬ (hm = HMonth.Adar2 ∧ ¬ IsLeap theYear = true) := by
      intro h
      exact c ⟨h.1, by simpa using h.2⟩
    rw [if_neg c, if_neg c2]

/-- C8 on samples: Adar2 in the common year 5783 becomes Adar1, Adar2 in the leap year 5784
stays, Nisan is stored as it is. -/
theorem C8_parse_hebrew_month_witness :
    sampleAtoi "Adar2" = none ∧ sampleMonthFromName "Adar2" = some HMonth.Adar2
      ∧ IsLeapYear 5783 = false ∧ IsLeapYear 5784 = true
      ∧ parseGregOrHebMonth sampleAtoi sampleMonthFromName IsLeapYear
          { IsHebrewYear := false, gregMonth := 0, hebMonth := HMonth.Tishrei } 5783 "Adar2"
        = .ok { IsHebrewYear := true, gregMonth := 0, hebMonth := HMonth.Adar1 }
      ∧ parseGregOrHebMonth sampleAtoi sampleMonthFromName IsLeapYear
          { IsHebrewYear := false, gregMonth := 0, hebMonth := HMonth.Tishrei } 5784 "Adar2"
        = .ok { IsHebrewYear := true, gregMonth := 0, hebMonth := HMonth.Adar2 }
      ∧ parseGregOrHebMonth sampleAtoi sampleMonthFromName IsLeapYear
          { IsHebrewYear := false, gregMonth := 0, hebMonth := HMonth.Tishrei } 5783 "Nisan"
        = .ok { IsHebrewYear := true, gregMonth := 0, hebMonth := HMonth.Nisan } :=
  ⟨by decide, by decide, by decide, by decide,
    C8_parse_hebrew_month sampleAtoi sampleMonthFromName IsLeapYear
      { IsHebrewYear := false, gregMonth := 0, hebMonth := HMonth.Tishrei } 5783 "Adar2"
      HMonth.Adar2 (by decide) (by decide),
    C8_parse_hebrew_month sampleAtoi sampleMonthFromName IsLeapYear
      { IsHebrewYear := false, gregMonth := 0, hebMonth := HMonth.Tishrei } 5784 "Adar2"
      HMonth.Adar2 (by decide) (by decide),
    C8_parse_hebrew_month sampleAtoi sampleMonthFromName IsLeapYear
      { IsHebrewYear := false, gregMonth := 0, hebMonth := HMonth.Tishrei } 5783 "Nisan"
      HMonth.Nisan (by decide) (by decide)⟩

/-- C9. `newOmerEvent hd omerDay` panics exactly when `omerDay < 1` or `omerDay > 49`; for
`omerDay` in `1..49` it returns an event whose `OmerDay` is `omerDay` and whose `Date` is
`hd`. -/
theorem C9_newOmerEvent (hd : HDate) (omerDay : Int) :
    (newOmerEvent hd omerDay = .error "invalid omerDay" ↔ omerDay < 1 ∨ omerDay > 49)
      ∧ ((∃ msg, newOmerEvent hd omerDay = .error msg) ↔ omerDay < 1 ∨ omerDay > 49)
      ∧ (1 ≤ omerDay ∧ omerDay ≤ 49 →
          ∃ ev, newOmerEvent hd omerDay = .ok ev ∧ ev.OmerDay = omerDay ∧ ev.Date = hd) := by
  unfold newOmerEvent
  by_cases c : omerDay < 1 ∨ omerDay > 49
  · rw [if_pos c]
    refine ⟨⟨fun _ => c, fun _ => rfl⟩, ⟨fun _ => c, fun _ => ⟨_, rfl⟩⟩, ?_⟩
    intro h
    omega
  · rw [if_neg c]
    refine ⟨⟨fun h => (by cases h), fun h => absurd h c⟩,
      ⟨fun ⟨_, h⟩ => (by cases h), fun h => absurd h c⟩, ?_⟩
    intro _
    exact ⟨_, rfl, rfl, rfl⟩

/-- C9 on samples: day 33 gives an event of that day and date; days 0 and 50 panic. -/
theorem C9_newOmerEvent_witness :
    (1 : Int) ≤ 33 ∧ (33 : Int) ≤ 49
      ∧ (∃ ev, newOmerEvent { Year := 5783, Month := HMonth.Iyyar, Day := 18 } 33 = .ok ev
          ∧ ev.OmerDay = 33 ∧ ev.Date = { Year := 5783, Month := HMonth.Iyyar, Day := 18 })
      ∧ newOmerEvent { Year := 5783, Month := HMonth.Nisan, Day := 15 } 0
          = .error "invalid omerDay"
      ∧ newOmerEvent { Year := 5783, Month := HMonth.Sivan, Day := 6 } 50
          = .error "invalid omerDay" :=
  ⟨by decide, by decide,
    (C9_newOmerEvent { Year := 5783, Month := HMonth.Iyyar, Day := 18 } 33).2.2
      ⟨by decide, by decide⟩,
    (C9_newOmerEvent { Year := 5783, Month := HMonth.Nisan, Day := 15 } 0).1.2
      (Or.inl (by decide)),
    (C9_newOmerEvent { Year := 5783, Month := HMonth.Sivan, Day := 6 } 50).1.2
      (Or.inr (by decide))⟩

/-- C10. Mishna Yomi: for every date on or after the start of the cycle, 1947-05-20, the
lookup returns no error but the pair of the mishnayot at the positions `2 n` and `2 n + 1` of
the flattened Mishna, `n` being the days since the start modulo the length of the cycle, 2096
days; the start gives Berakhot 1:1 and 1:2, 1995-12-17 gives Bava Kamma 5:7 and 6:1 (across a
chapter) and 2024-04-05 gives Nedarim 11:12 and Nazir 1:1 (across a tractate). -/
theorem C10_mishnaYomi_lookup (abs : Int) (h : mishnaYomiStart ≤ abs) :
    (∃ a b, MishnaYomiIndex.Lookup MakeMishnaYomiIndex abs = .ok (a, b)
        ∧ (flattenMishna mishnayot)[2 * ((abs - mishnaYomiStart)
            % (MakeMishnaYomiIndex.length : Int)).toNat]? = some a
        ∧ (flattenMishna mishnayot)[2 * ((abs - mishnaYomiStart)
            % (MakeMishnaYomiIndex.length : Int)).toNat + 1]? = some b)
      ∧ MakeMishnaYomiIndex.length = 2096
      ∧ mishnaYomiStart = gregorian_to_abs 1947 5 20
      ∧ MishnaYomiIndex.Lookup MakeMishnaYomiIndex (gregorian_to_abs 1947 5 20)
          = .ok ({ Tractate := "Berakhot", Chap := 1, Verse := 1 },
                 { Tractate := "Berakhot", Chap := 1, Verse := 2 })
      ∧ MishnaYomiIndex.Lookup MakeMishnaYomiIndex (gregorian_to_abs 1995 12 17)
          = .ok ({ Tractate := "Bava Kamma", Chap := 5, Verse := 7 },
                 { Tractate := "Bava Kamma", Chap := 6, Verse := 1 })
      ∧ MishnaYomiIndex.Lookup MakeMishnaYomiIndex (gregorian_to_abs 2024 4 5)
          = .ok ({ Tractate := "Nedarim", Chap := 11, Verse := 12 },
                 { Tractate := "Nazir", Chap := 1, Verse := 1 }) := by
  refine ⟨?_, MakeMishnaYomiIndex_length, rfl,
    Lookup_of_mishnaAt _ _ _ (by decide) (by decide) (by decide),
    Lookup_of_mishnaAt _ _ _ (by decide) (by decide) (by decide),
    Lookup_of_mishnaAt _ _ _ (by decide) (by decide) (by decide)⟩
  rw [MakeMishnaYomiIndex_length]
  simp only [Nat.cast_ofNat]
  have hlen : (flattenMishna mishnayot).length = 4192 := by
    rw [flattenMishna_length, mishnaCount_mishnayot]
  have hn : ((abs - mishnaYomiStart) % 2096).toNat < 2096 := by omega
  have h0 : 2 * ((abs - mishnaYomiStart) % 2096).toNat < (flattenMishna mishnayot).length := by
    omega
  have h1 : 2 * ((abs - mishnaYomiStart) % 2096).toNat + 1
      < (flattenMishna mishnayot).length := by omega
  exact ⟨_, _, Lookup_of_positions abs _ _ h (List.getElem?_eq_getElem h0)
    (List.getElem?_eq_getElem h1), List.getElem?_eq_getElem h0, List.getElem?_eq_getElem h1⟩

/-- C10 on 2022-08-01: day 219 of the cycle, Terumot 11:3 and 11:4. -/
theorem C10_mishnaYomi_lookup_witness :
    mishnaYomiStart ≤ gregorian_to_abs 2022 8 1
      ∧ ∃ a b, MishnaYomiIndex.Lookup MakeMishnaYomiIndex (gregorian_to_abs 2022 8 1) = .ok (a, b)
        ∧ (flattenMishna mishnayot)[2 * ((gregorian_to_abs 2022 8 1 - mishnaYomiStart)
            % (MakeMishnaYomiIndex.length : Int)).toNat]? = some a
        ∧ (flattenMishna mishnayot)[2 * ((gregorian_to_abs 2022 8 1 - mishnaYomiStart)
            % (MakeMishnaYomiIndex.length : Int)).toNat + 1]? = some b :=
  ⟨by decide, (C10_mishnaYomi_lookup (gregorian_to_abs 2022 8 1) (by decide)).1⟩

/-- C11, the code at the failing input: with year-abbrev set, the American and the European
format print the year 2005 as the one character `5`, not as `05`; the year 1993 is printed as
`93`. -/
theorem C11_year_abbrev_evaluated :
    printGregDate
        { tabs_sw := false, weekday_sw := false,
          gregDateOutputFormatCode_sw := GregDateFormat.AMERICAN, noGreg_sw := false,
          yearDigits_sw := true }
        (fun _ => (2005, 1, 1)) (fun _ => Weekday.Saturday)
        { Year := 5765, Month := HMonth.Tevet, Day := 20 } = "1/1/5 "
      ∧ printGregDate
        { tabs_sw := false, weekday_sw := false,
          gregDateOutputFormatCode_sw := GregDateFormat.EURO, noGreg_sw := false,
          yearDigits_sw := true }
        (fun _ => (2005, 1, 1)) (fun _ => Weekday.Saturday)
        { Year := 5765, Month := HMonth.Tevet, Day := 20 } = "1.1.5 "
      ∧ Itoa (Int.tmod 2005 100) = "5"
      ∧ (Itoa (Int.tmod 2005 100)).length = 1
      ∧ printGregDate
        { tabs_sw := false, weekday_sw := false,
          gregDateOutputFormatCode_sw := GregDateFormat.AMERICAN, noGreg_sw := false,
          yearDigits_sw := true }
        (fun _ => (1993, 1, 1)) (fun _ => Weekday.Friday)
        { Year := 5753, Month := HMonth.Tevet, Day := 8 } = "1/1/93 " := by
  refine ⟨by decide, by decide, by decide, by decide, by decide⟩

/-- C12, the code at the failing input: the latitude argument `90,30` and the longitude
argument `180,30` pass the checks of `handleArgs`; the latitude is 90.5 and the longitude
-180.5, outside the ranges, and `New` panics on either. -/
theorem C12_coordinates_evaluated :
    handleArgs.latitude 90 30 = .ok (181 / 2)
      ∧ ¬ ((181 / 2 : ℚ) ≤ 90)
      ∧ New sampleLoadLocation (181 / 2) 0 (Unix 1655803510 0 Location.UTC) "UTC"
          = .error "Latitude out of range [-90,90]"
      ∧ handleArgs.longitude 180 30 = .ok (-361 / 2)
      ∧ ¬ ((-180 : ℚ) ≤ -361 / 2)
      ∧ New sampleLoadLocation 0 (-361 / 2) (Unix 1655803510 0 Location.UTC) "UTC"
          = .error "Longitude out of range [-180,180]" := by
  refine ⟨?_, by norm_num, ?_, ?_, by norm_num, ?_⟩
  · simp only [handleArgs.latitude, intAbs]
    norm_num
  · simp only [New]
    norm_num
  · simp only [handleArgs.longitude, intAbs]
    norm_num
  · simp only [New]
    norm_num

/-- C13. On a day without sunrise and sunset (the solar computation returns the null time
twice) every `hourOffset k` and every `sofZmanMGA k` is the zero instant of `time.Time{}`,
shown in the zone of the day: `IsZero` holds of it, so a caller can detect it; so it is for
Chatzot, SofZmanShma, SofZmanTfilla, MinchaGedola, MinchaKetana, PlagHaMincha, SofZmanShmaMGA
and SofZmanTfillaMGA. -/
theorem C13_null_day_zmanim (sun : SunriseSunset) (z : Zmanim)
    (h : sun z.Latitude z.Longitude z.Year z.Month z.Day = (nilTime, nilTime)) :
    (∀ k : ℚ, z.hourOffset sun k = nilTime.In z.loc ∧ (z.hourOffset sun k).IsZero = true
        ∧ (z.hourOffset sun k).UnixMilli = nilTime.UnixMilli)
      ∧ (∀ k : Int, z.sofZmanMGA sun k = nilTime.In z.loc ∧ (z.sofZmanMGA sun k).IsZero = true
        ∧ (z.sofZmanMGA sun k).UnixMilli = nilTime.UnixMilli)
      ∧ (z.Chatzot sun).IsZero = true ∧ (z.SofZmanShma sun).IsZero = true
      ∧ (z.SofZmanTfilla sun).IsZero = true ∧ (z.MinchaGedola sun).IsZero = true
      ∧ (z.MinchaKetana sun).IsZero = true ∧ (z.PlagHaMincha sun).IsZero = true
      ∧ (z.SofZmanShmaMGA sun).IsZero = true ∧ (z.SofZmanTfillaMGA sun).IsZero = true := by
  have a : ∀ k : ℚ, z.hourOffset sun k = nilTime.In z.loc ∧ (z.hourOffset sun k).IsZero = true
      ∧ (z.hourOffset sun k).UnixMilli = nilTime.UnixMilli := by
    intro k
    rw [hourOffset_of_null sun z k h]
    exact ⟨rfl, rfl, rfl⟩
  have b : ∀ k : Int, z.sofZmanMGA sun k = nilTime.In z.loc ∧ (z.sofZmanMGA sun k).IsZero = true
      ∧ (z.sofZmanMGA sun k).UnixMilli = nilTime.UnixMilli := by
    intro k
    rw [sofZmanMGA_of_null sun z k h]
    exact ⟨rfl, rfl, rfl⟩
  exact ⟨a, b, (a 6).2.1, (a 3).2.1, (a 4).2.1, (a (13 / 2)).2.1, (a (19 / 2)).2.1,
    (a (43 / 4)).2.1, (b 3).2.1, (b 4).2.1⟩

/-- C13 on a polar day in the zone of the sample day. -/
theorem C13_null_day_zmanim_witness :
    polarSun sampleDay.Latitude sampleDay.Longitude sampleDay.Year sampleDay.Month sampleDay.Day
        = (nilTime, nilTime)
      ∧ (sampleDay.Chatzot polarSun).IsZero = true
      ∧ sampleDay.Chatzot polarSun = { wall := 0, ext := 0, loc := newYork }
      ∧ (sampleDay.SofZmanShmaMGA polarSun).IsZero = true :=
  ⟨rfl, (C13_null_day_zmanim polarSun sampleDay rfl).2.2.1,
    ((C13_null_day_zmanim polarSun sampleDay rfl).1 6).1,
    (C13_null_day_zmanim polarSun sampleDay rfl).2.2.2.2.2.2.2.2.1⟩

/-- C14. For `omerDay` in `1..49` the event of `newOmerEvent` has `WeekNumber` and
`DaysWithinWeeks` in `1..7` with `omerDay = 7 * (WeekNumber - 1) + DaysWithinWeeks`; no other
pair of a week and a day in `1..7` decomposes `omerDay` so; and the table lookups of `Sefira`
are in bounds: it returns a string in every locale. -/
theorem C14_omer_week_day (hd : HDate) (omerDay : Int) (h : 1 ≤ omerDay ∧ omerDay ≤ 49) :
    ∃ ev, newOmerEvent hd omerDay = .ok ev
      ∧ (1 ≤ ev.WeekNumber ∧ ev.WeekNumber ≤ 7)
      ∧ (1 ≤ ev.DaysWithinWeeks ∧ ev.DaysWithinWeeks ≤ 7)
      ∧ omerDay = 7 * (ev.WeekNumber - 1) + ev.DaysWithinWeeks
      ∧ (∀ w d : Int, 1 ≤ w ∧ w ≤ 7 → 1 ≤ d ∧ d ≤ 7 → omerDay = 7 * (w - 1) + d →
          w = ev.WeekNumber ∧ d = ev.DaysWithinWeeks)
      ∧ (∀ (LookupTranslation : String → String → String) (locale : String),
          ∃ s, ev.Sefira LookupTranslation locale = .ok s) := by
  refine ⟨_, newOmerEvent_ok hd omerDay h, ?_⟩
  simp only
  have hw : 1 ≤ (omerDay - 1) / 7 + 1 ∧ (omerDay - 1) / 7 + 1 ≤ 7 := by omega
  have hday : 1 ≤ (if omerDay % 7 = 0 then 7 else omerDay % 7)
      ∧ (if omerDay % 7 = 0 then 7 else omerDay % 7) ≤ 7 := by
    split_ifs <;> omega
  refine ⟨hw, hday, ?_, ?_, ?_⟩
  · split_ifs <;> omega
  · intro w d hw2 hd2 e
    split_ifs <;> omega
  · intro L locale
    exact Sefira_ok L _ locale hw hday

/-- C14 on day 33 of the omer (Lag BaOmer), which is day 5 of week 5. -/
theorem C14_omer_week_day_witness :
    ((1 : Int) ≤ 33 ∧ (33 : Int) ≤ 49)
      ∧ (∃ ev, newOmerEvent { Year := 5783, Month := HMonth.Iyyar, Day := 18 } 33 = .ok ev
          ∧ (1 ≤ ev.WeekNumber ∧ ev.WeekNumber ≤ 7)
          ∧ (1 ≤ ev.DaysWithinWeeks ∧ ev.DaysWithinWeeks ≤ 7)
          ∧ (33 : Int) = 7 * (ev.WeekNumber - 1) + ev.DaysWithinWeeks
          ∧ (∀ w d : Int, 1 ≤ w ∧ w ≤ 7 → 1 ≤ d ∧ d ≤ 7 → (33 : Int) = 7 * (w - 1) + d →
              w = ev.WeekNumber ∧ d = ev.DaysWithinWeeks)
          ∧ (∀ (LookupTranslation : String → String → String) (locale : String),
              ∃ s, ev.Sefira LookupTranslation locale = .ok s)) :=
  ⟨⟨by decide, by decide⟩,
    C14_omer_week_day { Year := 5783, Month := HMonth.Iyyar, Day := 18 } 33
      ⟨by decide, by decide⟩⟩

/-- C15. On a day with sunrise ≤ sunset the Gra zmanim are in order and within the day:
Sunrise ≤ SofZmanShma ≤ SofZmanTfilla ≤ Chatzot ≤ MinchaGedola ≤ MinchaKetana ≤ PlagHaMincha
≤ Sunset; `hourOffset k` does not decrease when `k` grows, and `hourOffset 12` is not after
sunset. -/
theorem C15_gra_order (sun : SunriseSunset) (z : Zmanim)
    (h : (z.Sunrise sun).UnixMilli ≤ (z.Sunset sun).UnixMilli) :
    (z.Sunrise sun).UnixMilli ≤ (z.SofZmanShma sun).UnixMilli
      ∧ (z.SofZmanShma sun).UnixMilli ≤ (z.SofZmanTfilla sun).UnixMilli
      ∧ (z.SofZmanTfilla sun).UnixMilli ≤ (z.Chatzot sun).UnixMilli
      ∧ (z.Chatzot sun).UnixMilli ≤ (z.MinchaGedola sun).UnixMilli
      ∧ (z.MinchaGedola sun).UnixMilli ≤ (z.MinchaKetana sun).UnixMilli
      ∧ (z.MinchaKetana sun).UnixMilli ≤ (z.PlagHaMincha sun).UnixMilli
      ∧ (z.PlagHaMincha sun).UnixMilli ≤ (z.Sunset sun).UnixMilli
      ∧ (∀ k1 k2 : ℚ, k1 ≤ k2 →
          (z.hourOffset sun k1).UnixMilli ≤ (z.hourOffset sun k2).UnixMilli)
      ∧ (z.hourOffset sun 12).UnixMilli ≤ (z.Sunset sun).UnixMilli := by
  have hH := hour_of_le sun z h
  have h0 : 0 ≤ z.hour sun := by rw [hH]; omega
  have t3 := hourOffset_mul_div sun z 3 1 h0
  have t4 := hourOffset_mul_div sun z 4 1 h0
  have t6 := hourOffset_mul_div sun z 6 1 h0
  have t12 := hourOffset_mul_div sun z 12 1 h0
  have t13 := hourOffset_mul_div sun z 13 2 h0
  have t19 := hourOffset_mul_div sun z 19 2 h0
  have t43 := hourOffset_mul_div sun z 43 4 h0
  simp only [Nat.cast_ofNat, Nat.cast_one, div_one, Int.ediv_one] at t3 t4 t6 t12 t13 t19 t43
  simp only [Zmanim.SofZmanShma, Zmanim.SofZmanTfilla, Zmanim.Chatzot, Zmanim.MinchaGedola,
    Zmanim.MinchaKetana, Zmanim.PlagHaMincha, t3, t4, t6, t12, t13, t19, t43]
  refine ⟨by omega, by omega, by omega, by omega, by omega, by omega, by omega, ?_, by omega⟩
  intro k1 k2 hk
  rw [hourOffset_UnixMilli, hourOffset_UnixMilli]
  have hq : (0 : ℚ) ≤ (z.hour sun : ℚ) := by exact_mod_cast h0
  have := truncate_mono _ _ (mul_le_mul_of_nonneg_left hk hq)
  omega

/-- C15 on the sample day. -/
theorem C15_gra_order_witness :
    (sampleDay.Sunrise sampleSun).UnixMilli ≤ (sampleDay.Sunset sampleSun).UnixMilli
      ∧ (sampleDay.MinchaKetana sampleSun).UnixMilli ≤ (sampleDay.PlagHaMincha sampleSun).UnixMilli
      ∧ (sampleDay.PlagHaMincha sampleSun).UnixMilli ≤ (sampleDay.Sunset sampleSun).UnixMilli
      ∧ (sampleDay.hourOffset sampleSun 12).UnixMilli ≤ (sampleDay.Sunset sampleSun).UnixMilli :=
  ⟨by decide, (C15_gra_order sampleSun sampleDay (by decide)).2.2.2.2.2.1,
    (C15_gra_order sampleSun sampleDay (by decide)).2.2.2.2.2.2.1,
    (C15_gra_order sampleSun sampleDay (by decide)).2.2.2.2.2.2.2.2⟩

/-- C16. On a day that has a sunrise and a sunset (neither is the null time), both at whole
seconds and with sunrise ≤ sunset, the MGA temporal hour is the Gra halachic hour plus 12
minutes, `SofZmanShmaMGA` is `SofZmanShma` minus 36 minutes and `SofZmanTfillaMGA` is
`SofZmanTfilla` minus 24 minutes, to the millisecond.  (The zone of the embedding has no
clock change.) -/
theorem C16_mga_gra_distance (sun : SunriseSunset) (z : Zmanim)
    (hr : z.Sunrise sun ≠ nilTime) (hs : z.Sunset sun ≠ nilTime)
    (wr : (z.Sunrise sun).wall = 0) (ws : (z.Sunset sun).wall = 0)
    (h : (z.Sunrise sun).UnixMilli ≤ (z.Sunset sun).UnixMilli) :
    Int.tdiv ((z.SunsetOffset sun 72 false).UnixMilli
        - (z.SunriseOffset sun (-72) false).UnixMilli) 12 = z.hour sun + 12 * 60000
      ∧ (z.SofZmanShmaMGA sun).UnixMilli = (z.SofZmanShma sun).UnixMilli - 36 * 60000
      ∧ (z.SofZmanTfillaMGA sun).UnixMilli = (z.SofZmanTfilla sun).UnixMilli - 24 * 60000 := by
  have hH := hour_of_le sun z h
  have h0 : 0 ≤ z.hour sun := by rw [hH]; omega
  have t3 := hourOffset_mul_div sun z 3 1 h0
  have t4 := hourOffset_mul_div sun z 4 1 h0
  simp only [Nat.cast_ofNat, Nat.cast_one, div_one, Int.ediv_one] at t3 t4
  have eA : (z.SunriseOffset sun (-72) false).UnixMilli
      = (z.Sunrise sun).UnixMilli - 72 * 60000 := by
    rw [Zmanim.SunriseOffset, riseSetOffset_unrounded_UnixMilli z _ _ hr (Sunrise_loc sun z hr),
      wr]
    omega
  have eB : (z.SunsetOffset sun 72 false).UnixMilli
      = (z.Sunset sun).UnixMilli + 72 * 60000 := by
    rw [Zmanim.SunsetOffset, riseSetOffset_unrounded_UnixMilli z _ _ hs (Sunset_loc sun z hs),
      ws]
    omega
  have eH : Int.tdiv ((z.SunsetOffset sun 72 false).UnixMilli
      - (z.SunriseOffset sun (-72) false).UnixMilli) 12 = z.hour sun + 12 * 60000 := by
    rw [eA, eB, tdiv_eq _ 12 (by decide), if_pos (by omega), hH]
    omega
  refine ⟨eH, ?_, ?_⟩
  · rw [Zmanim.SofZmanShmaMGA, sofZmanMGA_UnixMilli, eH, eA, Zmanim.SofZmanShma, t3]
    omega
  · rw [Zmanim.SofZmanTfillaMGA, sofZmanMGA_UnixMilli, eH, eA, Zmanim.SofZmanTfilla, t4]
    omega

/-- C16 on the sample day: Sof Zman Shma is 09:11:33.748 (Gra) and 08:35:33.748 (MGA). -/
theorem C16_mga_gra_distance_witness :
    sampleDay.Sunrise sampleSun ≠ nilTime ∧ sampleDay.Sunset sampleSun ≠ nilTime
      ∧ (sampleDay.Sunrise sampleSun).wall = 0 ∧ (sampleDay.Sunset sampleSun).wall = 0
      ∧ (sampleDay.Sunrise sampleSun).UnixMilli ≤ (sampleDay.Sunset sampleSun).UnixMilli
      ∧ (sampleDay.SofZmanShmaMGA sampleSun).UnixMilli
          = (sampleDay.SofZmanShma sampleSun).UnixMilli - 36 * 60000
      ∧ (sampleDay.SofZmanTfillaMGA sampleSun).UnixMilli
          = (sampleDay.SofZmanTfilla sampleSun).UnixMilli - 24 * 60000 :=
  ⟨by decide, by decide, by decide, by decide, by decide,
    (C16_mga_gra_distance sampleSun sampleDay (by decide) (by decide) (by decide) (by decide)
      (by decide)).2⟩

end Hebcal
